import Mathlib

/-!
# Traffic-light controller (PIC18F452): embedding of `main.c` / `traffic_config.h`

The program is a single main context (`Set_Outputs` / `FSM_Update` in an endless loop) and one
interrupt handler (`ISR`).  The embedding is explicit state passing over a record `Machine` that
holds the two C globals and the device registers the program touches.

* 8-bit registers are natural numbers; register writes are reduced modulo `2 ^ 8`.
* `LATDbits.LATDn` / `LATBbits.LATBn` are bit `n` of `LATD` / `LATB`.
* Bit-fields of registers whose layout lives in the device header (`INTCONbits`, `ADCON0bits`)
  are separate Boolean fields.
* The A/D converter is the environment: a `Hardware` value tells, for the `k`-th conversion since
  power-on and the channel selected in `ADCON0`, how many polls the `GO` bit stays set and which
  result registers are delivered.  Only converters that do complete are represented.
* `trace` is a ghost log of the timing-relevant effects of the main context, in program order.
* Each C function is one state transformer and the interrupt handler runs between calls; a
  handler run inside a call has the effect of one just before or just after it, except in the
  `ST_PED_CROSS` case of `FSM_Update`, whose stores are also given one by one with the handler
  running in between (`pedCrossInterruptible`).
-/

namespace TrafficLight

/-! ## `traffic_config.h` -/

/-- Enumeration `SystemState_t`, in declaration order. -/
inductive SystemState_t where
  | ST_MAIN_GREEN
  | ST_MAIN_AMBER
  | ST_ALL_RED_1
  | ST_PED_CROSS
  | ST_PED_CLEAR
  | ST_SIDE_PREP
  | ST_SIDE_GREEN
  | ST_SIDE_AMBER
  | ST_ALL_RED_2
  | ST_MAIN_PREP
  deriving DecidableEq, Repr, Inhabited

open SystemState_t

/-- Position of an enumerator in `SystemState_t` (its C integer value). -/
def SystemState_t.toNat : SystemState_t → Nat
  | ST_MAIN_GREEN => 0
  | ST_MAIN_AMBER => 1
  | ST_ALL_RED_1 => 2
  | ST_PED_CROSS => 3
  | ST_PED_CLEAR => 4
  | ST_SIDE_PREP => 5
  | ST_SIDE_GREEN => 6
  | ST_SIDE_AMBER => 7
  | ST_ALL_RED_2 => 8
  | ST_MAIN_PREP => 9

/-- Output pin `PED_GREEN` is `LATDbits.LATD0`. -/
def PED_GREEN : Nat := 0
/-- Output pin `PED_RED` is `LATDbits.LATD1`. -/
def PED_RED : Nat := 1
/-- Output pin `SIDE_GREEN` is `LATDbits.LATD2`. -/
def SIDE_GREEN : Nat := 2
/-- Output pin `SIDE_AMBER` is `LATDbits.LATD3`. -/
def SIDE_AMBER : Nat := 3
/-- Output pin `SIDE_RED` is `LATDbits.LATD4`. -/
def SIDE_RED : Nat := 4
/-- Output pin `MAIN_GREEN` is `LATDbits.LATD5`. -/
def MAIN_GREEN : Nat := 5
/-- Output pin `MAIN_AMBER` is `LATDbits.LATD6`. -/
def MAIN_AMBER : Nat := 6
/-- Output pin `MAIN_RED` is `LATDbits.LATD7`. -/
def MAIN_RED : Nat := 7

/-- Wait light `WAIT_LED_MAIN` is `LATBbits.LATB7`. -/
def WAIT_LED_MAIN : Nat := 7
/-- Auxiliary wait light `LATBbits.LATB4`. -/
def LATB4 : Nat := 4
/-- Auxiliary wait light `LATBbits.LATB5`. -/
def LATB5 : Nat := 5
/-- Auxiliary wait light `LATBbits.LATB6`. -/
def LATB6 : Nat := 6

/-- Constant `TRAFFIC_THRESHOLD`. -/
def TRAFFIC_THRESHOLD : Nat := 286

/-! ## Machine state -/

/-- Timing-relevant effects of the main context, logged in program order. -/
inductive Effect where
  | delay (ms : Nat)
  | flagRead
  | flagClear
  | waitClear (bit : Nat)
  | convert (channel : Nat)
  | stateWrite (st : SystemState_t)
  deriving DecidableEq, Repr

/-- Outcome of one A/D conversion as produced by the converter. -/
structure Conversion where
  busy : Nat
  ADRESH : Nat
  ADRESL : Nat
  deriving DecidableEq, Repr

/-- The converter: outcome of the `k`-th conversion (counted from power-on) on a channel. -/
abbrev Hardware := Nat → Nat → Conversion

/-- The C globals and the device registers used by the program. -/
structure Machine where
  current_state : SystemState_t
  ped_request_flag : Nat
  LATB : Nat
  LATD : Nat
  TRISA : Nat
  TRISB : Nat
  TRISD : Nat
  ADCON0 : Nat
  ADCON1 : Nat
  ADRESH : Nat
  ADRESL : Nat
  GO : Bool
  ADON : Bool
  INT0IF : Bool
  INT0IE : Bool
  INTEDG0 : Bool
  GIE : Bool
  conversions : Nat
  trace : List Effect
  deriving DecidableEq, Repr

/-- Assignment `REGbits.REGi = 1` on an 8-bit register. -/
def setBit (r i : Nat) : Nat := (r ||| (1 <<< i)) % 256

/-- Assignment `REGbits.REGi = 0` on an 8-bit register. -/
def clearBit (r i : Nat) : Nat := r &&& (255 ^^^ (1 <<< i))

/-- Reading `REGbits.REGi`. -/
def getBit (r i : Nat) : Bool := r.testBit i

/-- Append an effect to the ghost log. -/
def Machine.log (s : Machine) (e : Effect) : Machine :=
  { s with trace := s.trace ++ [e] }

/-- Busy wait `__delay_ms(ms)`: only time passes. -/
def __delay_ms (ms : Nat) (s : Machine) : Machine :=
  s.log (Effect.delay ms)

/-- Assignment `current_state = st`. -/
def setState (st : SystemState_t) (s : Machine) : Machine :=
  { s with current_state := st }.log (Effect.stateWrite st)

/-! ## `main.c` -/

/-- Interrupt handler `ISR`: on `INT0IF` it sets the flag, asserts the four wait lights one
after the other and clears `INT0IF`. -/
def ISR (s : Machine) : Machine :=
  if s.INT0IF then
    { s with
      ped_request_flag := 1
      LATB := setBit (setBit (setBit (setBit s.LATB WAIT_LED_MAIN) LATB4) LATB5) LATB6
      INT0IF := false }
  else s

/-- A falling edge on RB0 with the interrupt enabled: the hardware raises `INT0IF` and the
handler runs. -/
def buttonPress (s : Machine) : Machine :=
  ISR { s with INT0IF := true }

/-- Function `Set_Outputs`: `LATD = 0x00`, then the pin assignments of the `switch`, in source
order.  No other register is written, so the bank is threaded as a local value. -/
def Set_Outputs (state : SystemState_t) (s : Machine) : Machine :=
  let LATD := 0x00
  let LATD :=
    match state with
    | ST_MAIN_GREEN => setBit (setBit (setBit LATD MAIN_GREEN) SIDE_RED) PED_RED
    | ST_MAIN_AMBER => setBit (setBit (setBit LATD MAIN_AMBER) SIDE_RED) PED_RED
    | ST_ALL_RED_1 => setBit (setBit (setBit LATD MAIN_RED) SIDE_RED) PED_RED
    | ST_ALL_RED_2 => setBit (setBit (setBit LATD MAIN_RED) SIDE_RED) PED_RED
    | ST_PED_CLEAR => setBit (setBit (setBit LATD MAIN_RED) SIDE_RED) PED_RED
    | ST_PED_CROSS => setBit (setBit (setBit LATD MAIN_RED) SIDE_RED) PED_GREEN
    | ST_SIDE_PREP => setBit (setBit (setBit (setBit LATD MAIN_RED) PED_RED) SIDE_RED) SIDE_AMBER
    | ST_SIDE_GREEN => setBit (setBit (setBit LATD MAIN_RED) PED_RED) SIDE_GREEN
    | ST_SIDE_AMBER => setBit (setBit (setBit LATD MAIN_RED) PED_RED) SIDE_AMBER
    | ST_MAIN_PREP => setBit (setBit (setBit (setBit LATD SIDE_RED) PED_RED) MAIN_RED) MAIN_AMBER
  { s with LATD := LATD }

/-- The loop `while (ADCON0bits.GO);` against a converter that keeps `GO` set for `busy` more
polls, then clears it and delivers the result registers. -/
def awaitConversion : Nat → Conversion → Machine → Machine
  | 0, c, s => { s with GO := false, ADRESH := c.ADRESH % 256, ADRESL := c.ADRESL % 256 }
  | n + 1, c, s => awaitConversion n c s

/-- Function `ADC_Read`: returns the value and the machine after the call. -/
def ADC_Read (hw : Hardware) (channel : Nat) (s : Machine) : Nat × Machine :=
  let s := { s with ADCON0 := s.ADCON0 &&& 0xC7 }
  let s := { s with ADCON0 := (s.ADCON0 ||| (channel <<< 3)) % 256 }
  let s := __delay_ms 2 s
  let selected := (s.ADCON0 >>> 3) % 8
  let c := hw s.conversions selected
  let s := { s with GO := true, conversions := s.conversions + 1 }.log (Effect.convert selected)
  let s := awaitConversion c.busy c s
  (((s.ADRESH <<< 8) + s.ADRESL) % 65536, s)

/-- Function `Check_Main_Traffic`. -/
def Check_Main_Traffic (hw : Hardware) (s : Machine) : Nat × Machine :=
  let r0 := ADC_Read hw 0 s
  if r0.1 > TRAFFIC_THRESHOLD then (1, r0.2)
  else
    let r2 := ADC_Read hw 2 r0.2
    if r2.1 > TRAFFIC_THRESHOLD then (1, r2.2)
    else (0, r2.2)

/-- Function `Check_Side_Traffic`. -/
def Check_Side_Traffic (hw : Hardware) (s : Machine) : Nat × Machine :=
  let r1 := ADC_Read hw 1 s
  if r1.1 > TRAFFIC_THRESHOLD then (1, r1.2)
  else
    let r3 := ADC_Read hw 3 r1.2
    if r3.1 > TRAFFIC_THRESHOLD then (1, r3.2)
    else (0, r3.2)

/-- Function `FSM_Update`. -/
def FSM_Update (hw : Hardware) (s : Machine) : Machine :=
  match s.current_state with
  | ST_MAIN_GREEN =>
    let s := __delay_ms 5000 s
    let s := s.log Effect.flagRead
    if s.ped_request_flag ≠ 0 then setState ST_MAIN_AMBER s
    else
      let r := Check_Side_Traffic hw s
      if r.1 ≠ 0 then setState ST_MAIN_AMBER r.2
      else __delay_ms 100 r.2
  | ST_MAIN_AMBER =>
    let s := __delay_ms 3000 s
    setState ST_ALL_RED_1 s
  | ST_ALL_RED_1 =>
    let s := __delay_ms 2000 s
    let s := s.log Effect.flagRead
    if s.ped_request_flag ≠ 0 then setState ST_PED_CROSS s
    else setState ST_SIDE_PREP s
  | ST_PED_CROSS =>
    let s := { s with ped_request_flag := 0 }.log Effect.flagClear
    let s := { s with LATB := clearBit s.LATB WAIT_LED_MAIN }.log (Effect.waitClear WAIT_LED_MAIN)
    let s := { s with LATB := clearBit s.LATB LATB4 }.log (Effect.waitClear LATB4)
    let s := { s with LATB := clearBit s.LATB LATB5 }.log (Effect.waitClear LATB5)
    let s := { s with LATB := clearBit s.LATB LATB6 }.log (Effect.waitClear LATB6)
    let s := __delay_ms 10000 s
    setState ST_PED_CLEAR s
  | ST_PED_CLEAR =>
    let s := __delay_ms 3000 s
    let r := Check_Side_Traffic hw s
    if r.1 ≠ 0 then setState ST_SIDE_PREP r.2
    else setState ST_MAIN_PREP r.2
  | ST_SIDE_PREP =>
    let s := __delay_ms 2000 s
    setState ST_SIDE_GREEN s
  | ST_SIDE_GREEN =>
    let s := __delay_ms 5000 s
    let m := Check_Main_Traffic hw s
    if m.1 ≠ 0 then setState ST_SIDE_AMBER m.2
    else
      let d := Check_Side_Traffic hw m.2
      if d.1 = 0 then setState ST_SIDE_AMBER d.2
      else
        let s := __delay_ms 5000 d.2
        setState ST_SIDE_AMBER s
  | ST_SIDE_AMBER =>
    let s := __delay_ms 3000 s
    setState ST_ALL_RED_2 s
  | ST_ALL_RED_2 =>
    let s := __delay_ms 2000 s
    setState ST_MAIN_PREP s
  | ST_MAIN_PREP =>
    let s := __delay_ms 2000 s
    setState ST_MAIN_GREEN s

/-- Function `System_Init`: port directions, cleared output latches, A/D configuration and
interrupt enables. -/
def System_Init (s : Machine) : Machine :=
  { s with
    TRISA := 0xFF
    TRISB := 0x01
    TRISD := 0x00
    LATB := 0x00
    LATD := 0x00
    ADCON1 := 0x80
    ADON := true
    INT0IE := true
    INTEDG0 := false
    GIE := true }

/-- The initialisers of the two globals, applied by the C start-up code before `main`. -/
def initGlobals (s : Machine) : Machine :=
  { s with ped_request_flag := 0, current_state := ST_MAIN_GREEN }

/-- One iteration of the `while (1)` body of `main`. -/
def mainLoopBody (hw : Hardware) (s : Machine) : Machine :=
  FSM_Update hw (Set_Outputs s.current_state s)

/-! ## Environment, executions and specification-side definitions -/

/-- Value that `ADC_Read` assembles from the result registers of a conversion outcome. -/
def Conversion.value (c : Conversion) : Nat :=
  (((c.ADRESH % 256) <<< 8) + c.ADRESL % 256) % 65536

/-- The converter delivers the 10-bit sample `a` right-justified in `ADRESH:ADRESL`
(the result format selected by `ADCON1 = 0x80`). -/
def Conversion.carries (c : Conversion) (a : Nat) : Prop :=
  c.ADRESH = a / 256 ∧ c.ADRESL = a % 256

instance (c : Conversion) (a : Nat) : Decidable (c.carries a) := by
  unfold Conversion.carries
  infer_instance

/-- What `Check_Side_Traffic` answers when called in machine `s`. -/
def sideOccupied (hw : Hardware) (s : Machine) : Bool :=
  decide ((Check_Side_Traffic hw s).1 ≠ 0)

/-- What `Check_Main_Traffic` answers when called in machine `s`. -/
def mainOccupied (hw : Hardware) (s : Machine) : Bool :=
  decide ((Check_Main_Traffic hw s).1 ≠ 0)

/-- Whether the demand flag tests true in C (`ped_request_flag` is non-zero). -/
def demand (s : Machine) : Bool :=
  decide (s.ped_request_flag ≠ 0)

/-- The four wait-indicator lines `LATB7`, `LATB4`, `LATB5`, `LATB6`. -/
def waitLines (s : Machine) : List Bool :=
  [getBit s.LATB WAIT_LED_MAIN, getBit s.LATB LATB4, getBit s.LATB LATB5, getBit s.LATB LATB6]

/-- The wait indicator reflects the latch: the flag is set exactly when all four lines are
asserted, and clear exactly when all four are de-asserted. -/
def WaitReflects (s : Machine) : Prop :=
  (s.ped_request_flag ≠ 0 ↔ waitLines s = [true, true, true, true]) ∧
  (s.ped_request_flag = 0 ↔ waitLines s = [false, false, false, false])

instance (s : Machine) : Decidable (WaitReflects s) := by
  unfold WaitReflects
  infer_instance

/-- Things that happen to the machine: a button interrupt, the `Set_Outputs(current_state)` call
of the main loop, the `FSM_Update()` call of the main loop. -/
inductive Action where
  | button
  | outputs
  | update
  deriving DecidableEq, Repr

/-- Effect of one action. -/
def step (hw : Hardware) (s : Machine) : Action → Machine
  | Action.button => buttonPress s
  | Action.outputs => Set_Outputs s.current_state s
  | Action.update => FSM_Update hw s

/-- One action, also recording the phase in which an `FSM_Update` call was made. -/
def observe (hw : Hardware) (r : Machine × List SystemState_t) (a : Action) :
    Machine × List SystemState_t :=
  (step hw r.1 a, if a = Action.update then r.2 ++ [r.1.current_state] else r.2)

/-- Run a schedule of actions: the final machine and the phases in which `FSM_Update` ran. -/
def execute (hw : Hardware) (s : Machine) (acts : List Action) : Machine × List SystemState_t :=
  acts.foldl (observe hw) (s, [])

/-- Final machine of a schedule. -/
def run (hw : Hardware) (s : Machine) (acts : List Action) : Machine :=
  (execute hw s acts).1

/-- Phases in which the `FSM_Update` calls of a schedule were made, in order. -/
def visited (hw : Hardware) (s : Machine) (acts : List Action) : List SystemState_t :=
  (execute hw s acts).2

/-- The path of phases of a schedule: the starting phase, then the phase after each
`FSM_Update` call. -/
def phasePath (hw : Hardware) (s : Machine) (acts : List Action) : List SystemState_t :=
  visited hw s acts ++ [(run hw s acts).current_state]

/-- Number of `FSM_Update` calls in a schedule. -/
def updates (acts : List Action) : Nat :=
  acts.count Action.update

/-- The schedule of `n` iterations of the `while (1)` body of `main` without interrupts. -/
def mainLoop : Nat → List Action
  | 0 => []
  | n + 1 => Action.outputs :: Action.update :: mainLoop n

/-- Transition table as written in the specification (section 4.1, column "Next"), a function of
the phase, the demand flag and the two occupancy readings. -/
def transitionTable (phase : SystemState_t) (demand main_occupied side_occupied : Bool) :
    SystemState_t :=
  match phase with
  | ST_MAIN_GREEN => if demand || side_occupied then ST_MAIN_AMBER else ST_MAIN_GREEN
  | ST_MAIN_AMBER => ST_ALL_RED_1
  | ST_ALL_RED_1 => if demand then ST_PED_CROSS else ST_SIDE_PREP
  | ST_PED_CROSS => ST_PED_CLEAR
  | ST_PED_CLEAR => if side_occupied then ST_SIDE_PREP else ST_MAIN_PREP
  | ST_SIDE_PREP => ST_SIDE_GREEN
  | ST_SIDE_GREEN => if main_occupied || !side_occupied then ST_SIDE_AMBER else ST_SIDE_AMBER
  | ST_SIDE_AMBER => ST_ALL_RED_2
  | ST_ALL_RED_2 => ST_MAIN_PREP
  | ST_MAIN_PREP => ST_MAIN_GREEN

/-- A machine in a given phase with a given flag value, all registers cleared. -/
def machineAt (phase : SystemState_t) (flag : Nat) : Machine :=
  { current_state := phase, ped_request_flag := flag, LATB := 0, LATD := 0, TRISA := 0,
    TRISB := 0, TRISD := 0, ADCON0 := 0, ADCON1 := 0, ADRESH := 0, ADRESL := 0, GO := false,
    ADON := false, INT0IF := false, INT0IE := false, INTEDG0 := false, GIE := false,
    conversions := 0, trace := [] }

/-- A converter that delivers the same 10-bit sample on every channel at every conversion. -/
def constantSample (a : Nat) : Hardware :=
  fun _ _ => { busy := 0, ADRESH := a / 256, ADRESL := a % 256 }

/-- A converter whose two main-road channels (0, 2) deliver `a` and whose two side-road
channels (1, 3) deliver `b`, at every conversion. -/
def roadSamples (a b : Nat) : Hardware :=
  fun _ ch => if ch % 2 = 0 then { busy := 0, ADRESH := a / 256, ADRESL := a % 256 }
    else { busy := 0, ADRESH := b / 256, ADRESL := b % 256 }

/-- A converter delivering sample 286 on channels 0 and 1, 287 on channel 2 and 0 on channel 3. -/
def boundaryHardware : Hardware :=
  fun _ ch => if ch = 2 then { busy := 5, ADRESH := 1, ADRESL := 31 }
    else if ch = 3 then { busy := 0, ADRESH := 0, ADRESL := 0 }
    else { busy := 1, ADRESH := 1, ADRESL := 30 }

/-- Largest number of `FSM_Update` calls after which a machine with the flag set is in
`ST_PED_CROSS`, by phase. -/
def pedRank : SystemState_t → Nat
  | ST_PED_CROSS => 0
  | ST_ALL_RED_1 => 1
  | ST_MAIN_AMBER => 2
  | ST_MAIN_GREEN => 3
  | ST_MAIN_PREP => 4
  | ST_ALL_RED_2 => 5
  | ST_SIDE_AMBER => 6
  | ST_SIDE_GREEN => 7
  | ST_SIDE_PREP => 8
  | ST_PED_CLEAR => 9

/-- Sequencing invariant of a run that started in `ST_MAIN_GREEN`: what the phases already left
(`v`) must end with, given the current phase. -/
def seqInv (v : List SystemState_t) : SystemState_t → Prop
  | ST_MAIN_AMBER => [ST_MAIN_GREEN] <:+ v
  | ST_ALL_RED_1 => [ST_MAIN_GREEN, ST_MAIN_AMBER] <:+ v
  | ST_PED_CROSS => [ST_MAIN_GREEN, ST_MAIN_AMBER, ST_ALL_RED_1] <:+ v
  | ST_PED_CLEAR => [ST_MAIN_GREEN, ST_MAIN_AMBER, ST_ALL_RED_1, ST_PED_CROSS] <:+ v
  | ST_SIDE_PREP =>
    [ST_MAIN_GREEN, ST_MAIN_AMBER, ST_ALL_RED_1] <:+ v ∨
    [ST_MAIN_GREEN, ST_MAIN_AMBER, ST_ALL_RED_1, ST_PED_CROSS, ST_PED_CLEAR] <:+ v
  | ST_SIDE_GREEN =>
    [ST_MAIN_GREEN, ST_MAIN_AMBER, ST_ALL_RED_1, ST_SIDE_PREP] <:+ v ∨
    [ST_MAIN_GREEN, ST_MAIN_AMBER, ST_ALL_RED_1, ST_PED_CROSS, ST_PED_CLEAR, ST_SIDE_PREP] <:+ v
  | _ => True

/-- The machine when `main` enters its loop: globals initialised, `System_Init` done. -/
def startUp : Machine :=
  System_Init (initGlobals (machineAt ST_MAIN_GREEN 0))

/-- Effects of the conversions `Check_Main_Traffic` makes when it starts at conversion `k`. -/
def mainReads (hw : Hardware) (k : Nat) : List Effect :=
  if TRAFFIC_THRESHOLD < (hw k 0).value then [Effect.delay 2, Effect.convert 0]
  else [Effect.delay 2, Effect.convert 0, Effect.delay 2, Effect.convert 2]

/-- Effects of the conversions `Check_Side_Traffic` makes when it starts at conversion `k`. -/
def sideReads (hw : Hardware) (k : Nat) : List Effect :=
  if TRAFFIC_THRESHOLD < (hw k 1).value then [Effect.delay 2, Effect.convert 1]
  else [Effect.delay 2, Effect.convert 1, Effect.delay 2, Effect.convert 3]

/-- A stretch of log that consists of A/D acquisitions only: 2 ms delays, each followed by the
start of a conversion. -/
def acquisitionsOnly : List Effect → Bool
  | [] => true
  | Effect.delay 2 :: Effect.convert _ :: rest => acquisitionsOnly rest
  | _ => false

/-- Total of the dwell delays in a stretch of log: every delay except the acquisition delays,
which are the ones directly followed by the start of a conversion. -/
def dwellTime : List Effect → Nat
  | [] => 0
  | Effect.delay _ :: Effect.convert c :: rest => dwellTime (Effect.convert c :: rest)
  | Effect.delay ms :: rest => ms + dwellTime rest
  | _ :: rest => dwellTime rest

/-- Dwell per phase as listed in the specification's transition table; for the pedestrian
crossing it is the 10000 ms that follow the clearing of the latch. -/
def specDwell : SystemState_t → Nat
  | ST_MAIN_GREEN => 5000
  | ST_MAIN_AMBER => 3000
  | ST_ALL_RED_1 => 2000
  | ST_PED_CROSS => 10000
  | ST_PED_CLEAR => 3000
  | ST_SIDE_PREP => 2000
  | ST_SIDE_GREEN => 5000
  | ST_SIDE_AMBER => 3000
  | ST_ALL_RED_2 => 2000
  | ST_MAIN_PREP => 2000

/-- The main road shows red only. -/
def mainRedOnly (b : Nat) : Bool :=
  getBit b MAIN_RED && !getBit b MAIN_AMBER && !getBit b MAIN_GREEN

/-- The side road shows red only. -/
def sideRedOnly (b : Nat) : Bool :=
  getBit b SIDE_RED && !getBit b SIDE_AMBER && !getBit b SIDE_GREEN

/-- The pedestrian head shows red only. -/
def pedRedOnly (b : Nat) : Bool :=
  getBit b PED_RED && !getBit b PED_GREEN

/-- What one `FSM_Update` call saw and did: the phase it ran in, the demand flag as tested, the
answer of a side-road check made at that call, and the phase it left. -/
structure Observation where
  phase : SystemState_t
  demand : Bool
  side : Bool
  next : SystemState_t
  deriving DecidableEq, Repr

/-- The observation of an `FSM_Update` call made in machine `s`. -/
def observation (hw : Hardware) (s : Machine) : Observation :=
  { phase := s.current_state, demand := demand s, side := sideOccupied hw s,
    next := (FSM_Update hw s).current_state }

/-- One action, also recording the observation of an `FSM_Update` call. -/
def logStep (hw : Hardware) (r : Machine × List Observation) (a : Action) :
    Machine × List Observation :=
  (step hw r.1 a, if a = Action.update then r.2 ++ [observation hw r.1] else r.2)

/-- Observations of the `FSM_Update` calls of a schedule, in order. -/
def history (hw : Hardware) (s : Machine) (acts : List Action) : List Observation :=
  (acts.foldl (logStep hw) (s, [])).2

/-- Invariant of a run that started in main green, on the history `h` when the machine is in
phase `p` with flag value `flag`: in main amber the last call left main green, in all-red 1 the
last two calls left main green and main amber; if the main-green exit saw the flag set the flag
is still set, and if it saw the flag clear it saw the side road occupied. -/
def exitInv (h : List Observation) (flag : Nat) : SystemState_t → Prop
  | ST_MAIN_AMBER => ∃ pre a, h = pre ++ [a] ∧
      a.phase = ST_MAIN_GREEN ∧ a.next = ST_MAIN_AMBER ∧
      (a.demand = true → flag ≠ 0) ∧ (a.demand = false → a.side = true)
  | ST_ALL_RED_1 => ∃ pre a b, h = pre ++ [a, b] ∧
      a.phase = ST_MAIN_GREEN ∧ a.next = ST_MAIN_AMBER ∧
      (a.demand = true → flag ≠ 0) ∧ (a.demand = false → a.side = true) ∧
      b.phase = ST_MAIN_AMBER ∧ b.next = ST_ALL_RED_1
  | _ => True

/-- Number of `FSM_Update` calls after which a machine is in main green at the latest, by
phase. -/
def mainRank : SystemState_t → Nat
  | ST_MAIN_GREEN => 0
  | p => 10 - p.toNat

/-- A point of the main context at which the INT0 handler can run: it runs when a button edge
has arrived. -/
def interruptPoint (edge : Bool) (s : Machine) : Machine :=
  if edge then buttonPress s else s

/-- The `ST_PED_CROSS` case of `FSM_Update` statement by statement, with the handler free to run
after each of its five stores (interrupts stay enabled in the main context): `edge k` tells
whether a button edge arrives right after store `k`, store 4 being followed by the 10 s delay. -/
def pedCrossInterruptible (edge : Nat → Bool) (s : Machine) : Machine :=
  let s := { s with ped_request_flag := 0 }.log Effect.flagClear
  let s := interruptPoint (edge 0) s
  let s := { s with LATB := clearBit s.LATB WAIT_LED_MAIN }.log (Effect.waitClear WAIT_LED_MAIN)
  let s := interruptPoint (edge 1) s
  let s := { s with LATB := clearBit s.LATB LATB4 }.log (Effect.waitClear LATB4)
  let s := interruptPoint (edge 2) s
  let s := { s with LATB := clearBit s.LATB LATB5 }.log (Effect.waitClear LATB5)
  let s := interruptPoint (edge 3) s
  let s := { s with LATB := clearBit s.LATB LATB6 }.log (Effect.waitClear LATB6)
  let s := interruptPoint (edge 4) s
  let s := __delay_ms 10000 s
  setState ST_PED_CLEAR s

/-- The machine after start-up, one button press and three iterations of the main loop: it is in
pedestrian cross with the request pending. -/
def crossingPending : Machine :=
  run (constantSample 0) startUp (Action.button :: mainLoop 3)

/-- A single button edge, arriving right after the first store of the crossing call. -/
def edgeAfterFlagClear (k : Nat) : Bool :=
  decide (k = 0)

/-! ## Register and sensor lemmas -/

theorem awaitConversion_eq (n : Nat) (c : Conversion) (s : Machine) :
    awaitConversion n c s =
      { s with GO := false, ADRESH := c.ADRESH % 256, ADRESL := c.ADRESL % 256 } := by
  induction n with
  | zero => rfl
  | succ n ih => simpa [awaitConversion] using ih

theorem select_channel (x c : Nat) (hc : c < 8) :
    ((((x &&& 0xC7) ||| (c <<< 3)) % 256) >>> 3) % 8 = c := by
  apply Nat.eq_of_testBit_eq
  intro i
  have h256 : (256 : Nat) = 2 ^ 8 := by norm_num
  have h8 : (8 : Nat) = 2 ^ 3 := by norm_num
  have m3 : Nat.testBit 199 3 = false := by decide
  have m4 : Nat.testBit 199 4 = false := by decide
  have m5 : Nat.testBit 199 5 = false := by decide
  rw [h256, h8, Nat.testBit_mod_two_pow, Nat.testBit_shiftRight, Nat.testBit_mod_two_pow,
    Nat.testBit_or, Nat.testBit_and, Nat.testBit_shiftLeft]
  by_cases hi : i < 3
  · interval_cases i <;> simp [m3, m4, m5]
  · have : c.testBit i = false := by
      apply Nat.testBit_lt_two_pow
      calc c < 2 ^ 3 := by omega
        _ ≤ 2 ^ i := Nat.pow_le_pow_right (by norm_num) (by omega)
    simp [hi, this]

theorem ADC_Read_eq (hw : Hardware) (ch : Nat) (s : Machine) (hc : ch < 8) :
    ADC_Read hw ch s =
      ((hw s.conversions ch).value,
        { s with
          ADCON0 := ((s.ADCON0 &&& 0xC7) ||| (ch <<< 3)) % 256
          GO := false
          ADRESH := (hw s.conversions ch).ADRESH % 256
          ADRESL := (hw s.conversions ch).ADRESL % 256
          conversions := s.conversions + 1
          trace := s.trace ++ [Effect.delay 2, Effect.convert ch] }) := by
  simp [ADC_Read, awaitConversion_eq, __delay_ms, Machine.log, select_channel _ _ hc,
    Conversion.value]


theorem Check_Side_Traffic_fst (hw : Hardware) (s : Machine) :
    (Check_Side_Traffic hw s).1 =
      if TRAFFIC_THRESHOLD < (hw s.conversions 1).value ∨
          TRAFFIC_THRESHOLD < (hw (s.conversions + 1) 3).value then 1 else 0 := by
  simp only [Check_Side_Traffic, ADC_Read_eq hw 1 s (by norm_num), gt_iff_lt]
  by_cases h1 : TRAFFIC_THRESHOLD < (hw s.conversions 1).value
  · simp [h1]
  · simp only [h1, if_false, false_or]
    rw [ADC_Read_eq hw 3 _ (by norm_num)]
    by_cases h3 : TRAFFIC_THRESHOLD < (hw (s.conversions + 1) 3).value <;> simp [h3]

theorem Check_Main_Traffic_fst (hw : Hardware) (s : Machine) :
    (Check_Main_Traffic hw s).1 =
      if TRAFFIC_THRESHOLD < (hw s.conversions 0).value ∨
          TRAFFIC_THRESHOLD < (hw (s.conversions + 1) 2).value then 1 else 0 := by
  simp only [Check_Main_Traffic, ADC_Read_eq hw 0 s (by norm_num), gt_iff_lt]
  by_cases h1 : TRAFFIC_THRESHOLD < (hw s.conversions 0).value
  · simp [h1]
  · simp only [h1, if_false, false_or]
    rw [ADC_Read_eq hw 2 _ (by norm_num)]
    by_cases h3 : TRAFFIC_THRESHOLD < (hw (s.conversions + 1) 2).value <;> simp [h3]

theorem Check_Side_Traffic_frame (hw : Hardware) (s : Machine) :
    (Check_Side_Traffic hw s).2.current_state = s.current_state ∧
    (Check_Side_Traffic hw s).2.ped_request_flag = s.ped_request_flag ∧
    (Check_Side_Traffic hw s).2.LATB = s.LATB ∧
    (Check_Side_Traffic hw s).2.LATD = s.LATD := by
  simp only [Check_Side_Traffic, ADC_Read_eq hw 1 s (by norm_num), gt_iff_lt]
  split
  · simp
  · rw [ADC_Read_eq hw 3 _ (by norm_num)]
    split <;> simp

theorem Check_Main_Traffic_frame (hw : Hardware) (s : Machine) :
    (Check_Main_Traffic hw s).2.current_state = s.current_state ∧
    (Check_Main_Traffic hw s).2.ped_request_flag = s.ped_request_flag ∧
    (Check_Main_Traffic hw s).2.LATB = s.LATB ∧
    (Check_Main_Traffic hw s).2.LATD = s.LATD := by
  simp only [Check_Main_Traffic, ADC_Read_eq hw 0 s (by norm_num), gt_iff_lt]
  split
  · simp
  · rw [ADC_Read_eq hw 2 _ (by norm_num)]
    split <;> simp

/-! ## `FSM_Update`: effect on the phase, the latch and the output banks -/

theorem sideOccupied_congr (hw : Hardware) (s t : Machine) (h : s.conversions = t.conversions) :
    (Check_Side_Traffic hw s).1 = (Check_Side_Traffic hw t).1 := by
  rw [Check_Side_Traffic_fst, Check_Side_Traffic_fst, h]

theorem FSM_Update_current_state (hw : Hardware) (s : Machine) (m : Bool) :
    (FSM_Update hw s).current_state =
      transitionTable s.current_state (demand s) m (sideOccupied hw s) := by
  have hside : ∀ t : Machine, t.conversions = s.conversions →
      (Check_Side_Traffic hw t).1 = (Check_Side_Traffic hw s).1 :=
    fun t ht => sideOccupied_congr hw t s ht
  cases hp : s.current_state
  case ST_MAIN_GREEN =>
    simp only [FSM_Update, hp, transitionTable, demand, sideOccupied]
    by_cases hf : s.ped_request_flag = 0
    · by_cases hs : (Check_Side_Traffic hw s).1 = 0
      · simp [hf, hs, __delay_ms, Machine.log, setState, hside, (Check_Side_Traffic_frame hw _).1, hp]
      · simp [hf, hs, __delay_ms, Machine.log, setState, hside]
    · simp [hf, __delay_ms, Machine.log, setState]
  case ST_PED_CLEAR =>
    simp only [FSM_Update, hp, transitionTable, demand, sideOccupied]
    by_cases hs : (Check_Side_Traffic hw s).1 = 0
    · simp [hs, __delay_ms, Machine.log, setState, hside]
    · simp [hs, __delay_ms, Machine.log, setState, hside]
  case ST_SIDE_GREEN =>
    simp only [FSM_Update, hp, transitionTable]
    split
    · simp [setState, Machine.log]
    · split <;> simp [setState, Machine.log, __delay_ms]
  case ST_ALL_RED_1 =>
    simp only [FSM_Update, hp, transitionTable, demand]
    by_cases hf : s.ped_request_flag = 0 <;> simp [hf, __delay_ms, Machine.log, setState]
  all_goals simp [FSM_Update, hp, transitionTable, __delay_ms, Machine.log, setState]

theorem FSM_Update_flag (hw : Hardware) (s : Machine) :
    (FSM_Update hw s).ped_request_flag =
      if s.current_state = ST_PED_CROSS then 0 else s.ped_request_flag := by
  cases hp : s.current_state
  case ST_MAIN_GREEN =>
    simp only [FSM_Update, hp]
    split
    · simp [setState, Machine.log, __delay_ms]
    · split <;> simp [setState, Machine.log, __delay_ms, (Check_Side_Traffic_frame hw _).2.1]
  case ST_PED_CLEAR =>
    simp only [FSM_Update, hp]
    split <;> simp [setState, Machine.log, __delay_ms, (Check_Side_Traffic_frame hw _).2.1]
  case ST_SIDE_GREEN =>
    simp only [FSM_Update, hp]
    split
    · simp [setState, Machine.log, __delay_ms, (Check_Main_Traffic_frame hw _).2.1]
    · split <;> simp [setState, Machine.log, __delay_ms, (Check_Main_Traffic_frame hw _).2.1,
        (Check_Side_Traffic_frame hw _).2.1]
  case ST_ALL_RED_1 =>
    simp only [FSM_Update, hp]
    split <;> simp [setState, Machine.log, __delay_ms]
  all_goals simp [FSM_Update, hp, __delay_ms, Machine.log, setState]

theorem FSM_Update_LATB (hw : Hardware) (s : Machine) :
    (FSM_Update hw s).LATB =
      if s.current_state = ST_PED_CROSS then
        clearBit (clearBit (clearBit (clearBit s.LATB WAIT_LED_MAIN) LATB4) LATB5) LATB6
      else s.LATB := by
  cases hp : s.current_state
  case ST_MAIN_GREEN =>
    simp only [FSM_Update, hp]
    split
    · simp [setState, Machine.log, __delay_ms]
    · split <;> simp [setState, Machine.log, __delay_ms, (Check_Side_Traffic_frame hw _).2.2.1]
  case ST_PED_CLEAR =>
    simp only [FSM_Update, hp]
    split <;> simp [setState, Machine.log, __delay_ms, (Check_Side_Traffic_frame hw _).2.2.1]
  case ST_SIDE_GREEN =>
    simp only [FSM_Update, hp]
    split
    · simp [setState, Machine.log, __delay_ms, (Check_Main_Traffic_frame hw _).2.2.1]
    · split <;> simp [setState, Machine.log, __delay_ms, (Check_Main_Traffic_frame hw _).2.2.1,
        (Check_Side_Traffic_frame hw _).2.2.1]
  case ST_ALL_RED_1 =>
    simp only [FSM_Update, hp]
    split <;> simp [setState, Machine.log, __delay_ms]
  all_goals simp [FSM_Update, hp, __delay_ms, Machine.log, setState]

theorem FSM_Update_LATD (hw : Hardware) (s : Machine) :
    (FSM_Update hw s).LATD = s.LATD := by
  cases hp : s.current_state
  case ST_MAIN_GREEN =>
    simp only [FSM_Update, hp]
    split
    · simp [setState, Machine.log, __delay_ms]
    · split <;> simp [setState, Machine.log, __delay_ms, (Check_Side_Traffic_frame hw _).2.2.2]
  case ST_PED_CLEAR =>
    simp only [FSM_Update, hp]
    split <;> simp [setState, Machine.log, __delay_ms, (Check_Side_Traffic_frame hw _).2.2.2]
  case ST_SIDE_GREEN =>
    simp only [FSM_Update, hp]
    split
    · simp [setState, Machine.log, __delay_ms, (Check_Main_Traffic_frame hw _).2.2.2]
    · split <;> simp [setState, Machine.log, __delay_ms, (Check_Main_Traffic_frame hw _).2.2.2,
        (Check_Side_Traffic_frame hw _).2.2.2]
  case ST_ALL_RED_1 =>
    simp only [FSM_Update, hp]
    split <;> simp [setState, Machine.log, __delay_ms]
  all_goals simp [FSM_Update, hp, __delay_ms, Machine.log, setState]

/-! ## Bit-level lemmas for the output latches -/

theorem getBit_setBit (r i j : Nat) :
    getBit (setBit r i) j = (decide (j < 8) && (decide (i = j) || getBit r j)) := by
  have h256 : (256 : Nat) = 2 ^ 8 := by norm_num
  simp only [getBit, setBit]
  rw [h256, Nat.testBit_mod_two_pow, Nat.testBit_or, Nat.one_shiftLeft, Nat.testBit_two_pow]
  simp [Bool.or_comm]

theorem getBit_clearBit (r i j : Nat) (hi : i < 8) :
    getBit (clearBit r i) j = (!decide (i = j) && (decide (j < 8) && getBit r j)) := by
  have h255 : (255 : Nat) = 2 ^ 8 - 1 := by norm_num
  simp only [getBit, clearBit]
  rw [Nat.testBit_and, Nat.testBit_xor, Nat.one_shiftLeft, Nat.testBit_two_pow, h255,
    Nat.testBit_two_pow_sub_one]
  by_cases hij : i = j
  · subst hij; simp [hi]
  · by_cases hj : j < 8 <;> simp [hij, hj]

theorem setBit_absorb (x i : Nat)
    (hx : ∀ j, getBit x j = (decide (j < 8) && getBit x j))
    (hi : getBit x i = true) : setBit x i = x := by
  apply Nat.eq_of_testBit_eq
  intro j
  have h1 := getBit_setBit x i j
  have h2 := hx j
  simp only [getBit] at h1 h2 hi
  rw [h1]
  by_cases hij : i = j
  · subst hij
    simp only [hi, decide_True, Bool.or_true, Bool.and_true, decide_eq_true_eq]
    by_contra hcon
    rw [h2] at hi
    simp [hcon] at hi
  · rw [h2]; simp [hij]

theorem waitLines_buttonPress (s : Machine) :
    (buttonPress s).ped_request_flag = 1 ∧
      waitLines (buttonPress s) = [true, true, true, true] := by
  simp [buttonPress, ISR, waitLines, getBit_setBit, WAIT_LED_MAIN, LATB4, LATB5, LATB6]

theorem waitLines_clear (b : Nat) :
    [getBit (clearBit (clearBit (clearBit (clearBit b WAIT_LED_MAIN) LATB4) LATB5) LATB6)
        WAIT_LED_MAIN,
      getBit (clearBit (clearBit (clearBit (clearBit b WAIT_LED_MAIN) LATB4) LATB5) LATB6) LATB4,
      getBit (clearBit (clearBit (clearBit (clearBit b WAIT_LED_MAIN) LATB4) LATB5) LATB6) LATB5,
      getBit (clearBit (clearBit (clearBit (clearBit b WAIT_LED_MAIN) LATB4) LATB5) LATB6) LATB6] =
      [false, false, false, false] := by
  simp [getBit_clearBit, WAIT_LED_MAIN, LATB4, LATB5, LATB6]

theorem Set_Outputs_frame (st : SystemState_t) (s : Machine) :
    Set_Outputs st s = { s with LATD := (Set_Outputs st s).LATD } := by
  cases st <;> rfl

/-! ## Executions -/

theorem step_current_state (hw : Hardware) (s : Machine) (a : Action)
    (ha : a ≠ Action.update) : (step hw s a).current_state = s.current_state := by
  cases a
  · simp only [step, buttonPress, ISR]; rfl
  · rw [step, Set_Outputs_frame]
  · exact absurd rfl ha

theorem step_outputs_flag (hw : Hardware) (s : Machine) :
    (step hw s Action.outputs).ped_request_flag = s.ped_request_flag := by
  rw [step, Set_Outputs_frame]

theorem step_button_flag (hw : Hardware) (s : Machine) :
    (step hw s Action.button).ped_request_flag = 1 :=
  (waitLines_buttonPress s).1

theorem foldl_observe_fst (hw : Hardware) (acts : List Action)
    (r : Machine × List SystemState_t) :
    (acts.foldl (observe hw) r).1 = (acts.foldl (observe hw) (r.1, [])).1 := by
  induction acts generalizing r with
  | nil => rfl
  | cons a as ih => rw [List.foldl_cons, List.foldl_cons, ih, ih (observe hw (r.1, []) a)]; rfl

theorem foldl_observe_snd (hw : Hardware) (acts : List Action)
    (r : Machine × List SystemState_t) :
    (acts.foldl (observe hw) r).2 = r.2 ++ (acts.foldl (observe hw) (r.1, [])).2 := by
  induction acts generalizing r with
  | nil => simp
  | cons a as ih =>
    rw [List.foldl_cons, List.foldl_cons, ih, ih (observe hw (r.1, []) a)]
    by_cases ha : a = Action.update <;> simp [observe, ha]

theorem run_nil (hw : Hardware) (s : Machine) : run hw s [] = s := rfl

theorem run_cons (hw : Hardware) (s : Machine) (a : Action) (as : List Action) :
    run hw s (a :: as) = run hw (step hw s a) as := by
  simp only [run, execute, List.foldl_cons]
  rw [foldl_observe_fst]; rfl

theorem visited_nil (hw : Hardware) (s : Machine) : visited hw s [] = [] := rfl

theorem visited_cons (hw : Hardware) (s : Machine) (a : Action) (as : List Action) :
    visited hw s (a :: as) =
      (if a = Action.update then [s.current_state] else []) ++ visited hw (step hw s a) as := by
  simp only [visited, execute, List.foldl_cons]
  rw [foldl_observe_snd]; rfl

theorem run_mainLoop_succ (hw : Hardware) (s : Machine) (n : Nat) :
    run hw s (mainLoop (n + 1)) = run hw (mainLoopBody hw s) (mainLoop n) := by
  rw [mainLoop, run_cons, run_cons]
  rfl

theorem phasePath_nil (hw : Hardware) (s : Machine) :
    phasePath hw s [] = [s.current_state] := rfl

theorem phasePath_update (hw : Hardware) (s : Machine) (as : List Action) :
    phasePath hw s (Action.update :: as) =
      s.current_state :: phasePath hw (FSM_Update hw s) as := by
  simp [phasePath, visited_cons, run_cons, step]

theorem phasePath_other (hw : Hardware) (s : Machine) (a : Action) (as : List Action)
    (ha : a ≠ Action.update) :
    phasePath hw s (a :: as) = phasePath hw (step hw s a) as := by
  simp [phasePath, visited_cons, run_cons, ha]

theorem updates_cons_update (as : List Action) :
    updates (Action.update :: as) = updates as + 1 := by
  simp [updates]

theorem updates_cons_other (a : Action) (as : List Action) (ha : a ≠ Action.update) :
    updates (a :: as) = updates as := by
  simp [updates, List.count_cons, ha]

theorem phasePath_zero (hw : Hardware) (acts : List Action) (s : Machine)
    (h : updates acts = 0) : phasePath hw s acts = [s.current_state] := by
  induction acts generalizing s with
  | nil => rfl
  | cons a as ih =>
    by_cases ha : a = Action.update
    · subst ha; rw [updates_cons_update] at h; omega
    · rw [phasePath_other hw s a as ha, ih _ (by rwa [updates_cons_other a as ha] at h),
        step_current_state hw s a ha]

/-- One link of a forced phase sequence: from machines satisfying `P`, which are in phase `p`,
an update leads to machines satisfying `Q`, and other permitted actions keep `P`. -/
theorem phasePath_link (hw : Hardware) (allowed : Action → Prop) (P Q : Machine → Prop)
    (p : SystemState_t) (L : List SystemState_t) (n : Nat)
    (hp : ∀ s, P s → s.current_state = p)
    (hstay : ∀ s a, P s → allowed a → a ≠ Action.update → P (step hw s a))
    (hgo : ∀ s, P s → Q (FSM_Update hw s))
    (hQ : ∀ acts s, Q s → (∀ a ∈ acts, allowed a) → updates acts = n →
      phasePath hw s acts = L) :
    ∀ acts s, P s → (∀ a ∈ acts, allowed a) → updates acts = n + 1 →
      phasePath hw s acts = p :: L := by
  intro acts
  induction acts with
  | nil => intro s _ _ h; simp [updates] at h
  | cons a as ih =>
    intro s hs hall hn
    have hall' : ∀ b ∈ as, allowed b := fun b hb => hall b (List.mem_cons_of_mem a hb)
    by_cases ha : a = Action.update
    · subst ha
      rw [updates_cons_update] at hn
      rw [phasePath_update, hp s hs, hQ as _ (hgo s hs) hall' (by omega)]
    · rw [updates_cons_other a as ha] at hn
      rw [phasePath_other hw s a as ha]
      exact ih _ (hstay s a hs (hall a (List.mem_cons_self a as)) ha) hall' hn

/-! ## Sensor facts used by the claims -/

theorem roadSamples_side (b : Bool) (m : Nat) (s : Machine) :
    sideOccupied (roadSamples m (if b then 287 else 0)) s = b := by
  cases b <;> simp [sideOccupied, Check_Side_Traffic_fst, roadSamples, Conversion.value, TRAFFIC_THRESHOLD]

theorem roadSamples_main (b : Bool) (m : Nat) (s : Machine) :
    mainOccupied (roadSamples (if b then 287 else 0) m) s = b := by
  cases b <;> simp [mainOccupied, Check_Main_Traffic_fst, roadSamples, Conversion.value, TRAFFIC_THRESHOLD]

theorem carries_value (c : Conversion) (a : Nat) (ha : a ≤ 1023) (h : c.carries a) :
    c.value = a := by
  obtain ⟨h1, h2⟩ := h
  simp only [Conversion.value, h1, h2, Nat.shiftLeft_eq]
  omega

theorem Check_Main_Traffic_effects (hw : Hardware) (s : Machine) :
    ((Check_Main_Traffic hw s).2.conversions, (Check_Main_Traffic hw s).2.trace) =
      if TRAFFIC_THRESHOLD < (hw s.conversions 0).value then
        (s.conversions + 1, s.trace ++ [Effect.delay 2, Effect.convert 0])
      else
        (s.conversions + 2,
          s.trace ++ [Effect.delay 2, Effect.convert 0, Effect.delay 2, Effect.convert 2]) := by
  simp only [Check_Main_Traffic, ADC_Read_eq hw 0 s (by norm_num), gt_iff_lt]
  split
  · simp
  · rw [ADC_Read_eq hw 2 _ (by norm_num)]
    split <;> simp

theorem Check_Side_Traffic_effects (hw : Hardware) (s : Machine) :
    ((Check_Side_Traffic hw s).2.conversions, (Check_Side_Traffic hw s).2.trace) =
      if TRAFFIC_THRESHOLD < (hw s.conversions 1).value then
        (s.conversions + 1, s.trace ++ [Effect.delay 2, Effect.convert 1])
      else
        (s.conversions + 2,
          s.trace ++ [Effect.delay 2, Effect.convert 1, Effect.delay 2, Effect.convert 3]) := by
  simp only [Check_Side_Traffic, ADC_Read_eq hw 1 s (by norm_num), gt_iff_lt]
  split
  · simp
  · rw [ADC_Read_eq hw 3 _ (by norm_num)]
    split <;> simp

/-! ## Sequencing -/

theorem suffix_snoc {α : Type} (l v : List α) (x : α) (h : l <:+ v) :
    l ++ [x] <:+ v ++ [x] := by
  obtain ⟨t, rfl⟩ := h
  exact ⟨t, by simp⟩

theorem suffix_self_snoc {α : Type} (v : List α) (x : α) : [x] <:+ v ++ [x] :=
  ⟨v, rfl⟩

/-- Phases from which `FSM_Update` can lead to a given phase. -/
theorem FSM_Update_predecessor (hw : Hardware) (s : Machine) :
    ((FSM_Update hw s).current_state = ST_MAIN_GREEN →
      s.current_state = ST_MAIN_PREP ∨ s.current_state = ST_MAIN_GREEN) ∧
    ((FSM_Update hw s).current_state = ST_MAIN_AMBER → s.current_state = ST_MAIN_GREEN) ∧
    ((FSM_Update hw s).current_state = ST_ALL_RED_1 → s.current_state = ST_MAIN_AMBER) ∧
    ((FSM_Update hw s).current_state = ST_PED_CROSS →
      s.current_state = ST_ALL_RED_1 ∧ s.ped_request_flag ≠ 0) ∧
    ((FSM_Update hw s).current_state = ST_PED_CLEAR → s.current_state = ST_PED_CROSS) ∧
    ((FSM_Update hw s).current_state = ST_SIDE_PREP →
      s.current_state = ST_ALL_RED_1 ∨ s.current_state = ST_PED_CLEAR) ∧
    ((FSM_Update hw s).current_state = ST_SIDE_GREEN → s.current_state = ST_SIDE_PREP) := by
  rw [FSM_Update_current_state hw s false]
  cases hp : s.current_state <;> cases hd : demand s <;> cases hs : sideOccupied hw s <;>
    simp [transitionTable] <;> simpa [demand] using hd

theorem seqInv_observe (hw : Hardware) (r : Machine × List SystemState_t) (a : Action)
    (h : seqInv r.2 r.1.current_state) :
    seqInv (observe hw r a).2 (observe hw r a).1.current_state := by
  by_cases ha : a = Action.update
  · subst ha
    have hpre := FSM_Update_predecessor hw r.1
    simp only [observe, step, if_true]
    cases hq : (FSM_Update hw r.1).current_state with
    | ST_MAIN_AMBER =>
      rw [hq] at hpre
      simp only [seqInv]
      rw [hpre.2.1 rfl]; exact suffix_self_snoc _ _
    | ST_ALL_RED_1 =>
      rw [hq] at hpre
      simp only [seqInv]
      have hp := hpre.2.2.1 rfl
      rw [hp] at h ⊢; exact suffix_snoc _ _ _ h
    | ST_PED_CROSS =>
      rw [hq] at hpre
      simp only [seqInv]
      have hp := (hpre.2.2.2.1 rfl).1
      rw [hp] at h ⊢; exact suffix_snoc _ _ _ h
    | ST_PED_CLEAR =>
      rw [hq] at hpre
      simp only [seqInv]
      have hp := hpre.2.2.2.2.1 rfl
      rw [hp] at h ⊢; exact suffix_snoc _ _ _ h
    | ST_SIDE_PREP =>
      rw [hq] at hpre
      simp only [seqInv]
      rcases hpre.2.2.2.2.2.1 rfl with hp | hp
      · rw [hp] at h ⊢; exact Or.inl (suffix_snoc _ _ _ h)
      · rw [hp] at h ⊢; exact Or.inr (suffix_snoc _ _ _ h)
    | ST_SIDE_GREEN =>
      rw [hq] at hpre
      simp only [seqInv]
      have hp := hpre.2.2.2.2.2.2 rfl
      rw [hp] at h ⊢
      rcases h with h | h
      · exact Or.inl (suffix_snoc _ _ _ h)
      · exact Or.inr (suffix_snoc _ _ _ h)
    | _ => simp only [seqInv]
  · simp only [observe, ha, if_false]
    rwa [step_current_state hw r.1 a ha]

theorem seqInv_foldl (hw : Hardware) (acts : List Action) (r : Machine × List SystemState_t)
    (h : seqInv r.2 r.1.current_state) :
    seqInv (acts.foldl (observe hw) r).2 (acts.foldl (observe hw) r).1.current_state := by
  induction acts generalizing r with
  | nil => exact h
  | cons a as ih => exact ih _ (seqInv_observe hw r a h)

/-- A phase with an unconditional successor: one link of a forced sequence under any actions. -/
theorem phasePath_forced (hw : Hardware) (p q : SystemState_t) (L : List SystemState_t) (n : Nat)
    (hpq : ∀ d m sd, transitionTable p d m sd = q)
    (hQ : ∀ acts s, s.current_state = q → updates acts = n → phasePath hw s acts = L) :
    ∀ acts s, s.current_state = p → updates acts = n + 1 → phasePath hw s acts = p :: L := by
  intro acts s hs hn
  refine phasePath_link hw (fun _ => True) (fun s => s.current_state = p)
    (fun s => s.current_state = q) p L n (fun _ h => h) ?_ ?_ ?_ acts s hs (fun _ _ => trivial) hn
  · intro s a hs _ ha
    rw [step_current_state hw s a ha]; exact hs
  · intro s hs
    show (FSM_Update hw s).current_state = q
    rw [FSM_Update_current_state hw s false, hs, hpq]
  · intro acts s hs _ hn
    exact hQ acts s hs hn

/-! ## The latch along a run -/

theorem buttonPress_idem (s : Machine) : buttonPress (buttonPress s) = buttonPress s := by
  have hx : ∀ (b j : Nat), getBit (setBit (setBit (setBit (setBit b 7) 4) 5) 6) j =
      (decide (j < 8) && getBit (setBit (setBit (setBit (setBit b 7) 4) 5) 6) j) := by
    intro b j
    rw [getBit_setBit]; simp
  have key : ∀ b : Nat,
      setBit (setBit (setBit (setBit (setBit (setBit (setBit (setBit b 7) 4) 5) 6) 7) 4) 5) 6 =
        setBit (setBit (setBit (setBit b 7) 4) 5) 6 := by
    intro b
    have h7 := setBit_absorb _ 7 (hx b) (by simp [getBit_setBit])
    have h4 := setBit_absorb _ 4 (hx b) (by simp [getBit_setBit])
    have h5 := setBit_absorb _ 5 (hx b) (by simp [getBit_setBit])
    have h6 := setBit_absorb _ 6 (hx b) (by simp [getBit_setBit])
    rw [h7, h4, h5, h6]
  simp [buttonPress, ISR, WAIT_LED_MAIN, LATB4, LATB5, LATB6, key]

theorem buttonPress_iterate (s : Machine) (n : Nat) :
    buttonPress^[n + 1] s = buttonPress s := by
  induction n with
  | zero => rfl
  | succ n ih => rw [Function.iterate_succ_apply', ih, buttonPress_idem]

theorem buttonPress_current_state (s : Machine) :
    (buttonPress s).current_state = s.current_state := by
  simp [buttonPress, ISR]

theorem pedRank_decreases (hw : Hardware) (s : Machine) (hf : s.ped_request_flag ≠ 0)
    (hp : s.current_state ≠ ST_PED_CROSS) :
    pedRank (FSM_Update hw s).current_state < pedRank s.current_state := by
  rw [FSM_Update_current_state hw s false]
  have hd : demand s = true := by simp [demand, hf]
  rw [hd]
  cases hq : s.current_state <;> cases hs : sideOccupied hw s <;>
    simp_all [transitionTable, pedRank]

/-- With the flag clear, outside the crossing phase and without button presses, the crossing
phase is not entered. -/
theorem no_cross_without_demand (hw : Hardware) (acts : List Action) (s : Machine)
    (hno : ∀ a ∈ acts, a ≠ Action.button) (hf : s.ped_request_flag = 0)
    (hp : s.current_state ≠ ST_PED_CROSS) :
    (phasePath hw s acts).count ST_PED_CROSS = 0 ∧ (run hw s acts).ped_request_flag = 0 := by
  induction acts generalizing s with
  | nil =>
    refine ⟨?_, hf⟩
    rw [phasePath_nil, List.count_singleton]
    simp [hp]
  | cons a as ih =>
    have hno' : ∀ b ∈ as, b ≠ Action.button := fun b hb => hno b (List.mem_cons_of_mem a hb)
    cases a with
    | button => exact absurd rfl (hno _ (List.mem_cons_self _ _))
    | outputs =>
      rw [phasePath_other hw s _ as (by decide), run_cons]
      exact ih _ hno' (by rw [step_outputs_flag]; exact hf)
        (by rw [step_current_state hw s _ (by decide)]; exact hp)
    | update =>
      rw [phasePath_update, run_cons, List.count_cons_of_ne (Ne.symm hp)]
      have hf' : (FSM_Update hw s).ped_request_flag = 0 := by
        rw [FSM_Update_flag]; simp [hp, hf]
      have hp' : (FSM_Update hw s).current_state ≠ ST_PED_CROSS := by
        intro h
        exact ((FSM_Update_predecessor hw s).2.2.2.1 h).2 hf
      exact ih _ hno' hf' hp'

/-- From the crossing phase, without button presses, the path holds that crossing and no
other, and the flag ends clear once the crossing update has run. -/
theorem one_cross_from_cross (hw : Hardware) (acts : List Action) (s : Machine)
    (hno : ∀ a ∈ acts, a ≠ Action.button) (hp : s.current_state = ST_PED_CROSS) :
    (phasePath hw s acts).count ST_PED_CROSS = 1 ∧
      (1 ≤ updates acts → (run hw s acts).ped_request_flag = 0) := by
  induction acts generalizing s with
  | nil =>
    refine ⟨?_, by simp [updates]⟩
    rw [phasePath_nil, hp, List.count_singleton]
    simp
  | cons a as ih =>
    have hno' : ∀ b ∈ as, b ≠ Action.button := fun b hb => hno b (List.mem_cons_of_mem a hb)
    cases a with
    | button => exact absurd rfl (hno _ (List.mem_cons_self _ _))
    | outputs =>
      rw [phasePath_other hw s _ as (by decide), run_cons,
        updates_cons_other _ as (by decide)]
      exact ih _ hno' (by rw [step_current_state hw s _ (by decide)]; exact hp)
    | update =>
      have hf' : (FSM_Update hw s).ped_request_flag = 0 := by
        rw [FSM_Update_flag]; simp [hp]
      have hp' : (FSM_Update hw s).current_state ≠ ST_PED_CROSS := by
        rw [FSM_Update_current_state hw s false, hp]; simp [transitionTable]
      have := no_cross_without_demand hw as _ hno' hf' hp'
      rw [phasePath_update, run_cons, hp, List.count_cons_self, this.1]
      exact ⟨rfl, fun _ => this.2⟩

/-- With the flag set, outside the crossing phase and without button presses, the path holds at
most one crossing, and exactly one as soon as the run has `pedRank` updates. -/
theorem one_cross_with_demand (hw : Hardware) (acts : List Action) (s : Machine)
    (hno : ∀ a ∈ acts, a ≠ Action.button) (hf : s.ped_request_flag ≠ 0)
    (hp : s.current_state ≠ ST_PED_CROSS) :
    (phasePath hw s acts).count ST_PED_CROSS ≤ 1 ∧
      (pedRank s.current_state ≤ updates acts →
        (phasePath hw s acts).count ST_PED_CROSS = 1) ∧
      (pedRank s.current_state + 1 ≤ updates acts → (run hw s acts).ped_request_flag = 0) := by
  have hpos : 0 < pedRank s.current_state := by
    cases hq : s.current_state <;> simp_all [pedRank]
  induction acts generalizing s with
  | nil =>
    refine ⟨?_, ?_, ?_⟩
    · rw [phasePath_nil, List.count_singleton]; simp [hp]
    · intro h; simp [updates] at h; omega
    · intro h; simp [updates] at h
  | cons a as ih =>
    have hno' : ∀ b ∈ as, b ≠ Action.button := fun b hb => hno b (List.mem_cons_of_mem a hb)
    cases a with
    | button => exact absurd rfl (hno _ (List.mem_cons_self _ _))
    | outputs =>
      have hcs := step_current_state hw s Action.outputs (by decide)
      rw [phasePath_other hw s _ as (by decide), run_cons,
        updates_cons_other _ as (by decide), ← hcs]
      exact ih _ hno' (by rw [step_outputs_flag]; exact hf) (by rw [hcs]; exact hp)
        (by rw [hcs]; exact hpos)
    | update =>
      rw [phasePath_update, run_cons, updates_cons_update,
        List.count_cons_of_ne (Ne.symm hp)]
      have hdec := pedRank_decreases hw s hf hp
      by_cases hp' : (FSM_Update hw s).current_state = ST_PED_CROSS
      · have := one_cross_from_cross hw as _ hno' hp'
        refine ⟨by omega, fun _ => this.1, fun h => this.2 (by omega)⟩
      · have hf' : (FSM_Update hw s).ped_request_flag ≠ 0 := by
          rw [FSM_Update_flag]; simpa [hp] using hf
        have hpos' : 0 < pedRank (FSM_Update hw s).current_state := by
          cases hq : (FSM_Update hw s).current_state <;> simp_all [pedRank]
        have := ih _ hno' hf' hp' hpos'
        exact ⟨this.1, fun h => this.2.1 (by omega), fun h => this.2.2 (by omega)⟩

theorem pedRank_le (p : SystemState_t) : pedRank p ≤ 9 := by
  cases p <;> simp [pedRank]

/-- As long as no update has run in all-red 1, a flag that was set outside the crossing phase
stays set and the crossing phase is not entered. -/
theorem flag_kept_until_all_red (hw : Hardware) (acts : List Action) (s : Machine)
    (hf : s.ped_request_flag ≠ 0) (hp : s.current_state ≠ ST_PED_CROSS)
    (hv : ST_ALL_RED_1 ∉ visited hw s acts) :
    (run hw s acts).ped_request_flag ≠ 0 ∧ (run hw s acts).current_state ≠ ST_PED_CROSS := by
  induction acts generalizing s with
  | nil => exact ⟨hf, hp⟩
  | cons a as ih =>
    rw [run_cons]
    rw [visited_cons] at hv
    cases a with
    | button =>
      refine ih _ ?_ ?_ (by simpa using hv)
      · rw [step_button_flag]; decide
      · rw [step_current_state hw s _ (by decide)]; exact hp
    | outputs =>
      refine ih _ ?_ ?_ (by simpa using hv)
      · rw [step_outputs_flag]; exact hf
      · rw [step_current_state hw s _ (by decide)]; exact hp
    | update =>
      simp only [if_true, List.singleton_append, List.mem_cons, not_or] at hv
      refine ih _ ?_ ?_ hv.2
      · show (FSM_Update hw s).ped_request_flag ≠ 0
        rw [FSM_Update_flag]; simpa [hp] using hf
      · intro h
        exact hv.1 ((FSM_Update_predecessor hw s).2.2.2.1 h).1.symm

theorem roadSamples_side_clear (a : Nat) (m : Machine) :
    sideOccupied (roadSamples a 0) m = false :=
  roadSamples_side false a m

/-! ## Scenario helpers -/

theorem roadSamples_side_busy (a : Nat) (m : Machine) :
    sideOccupied (roadSamples a 287) m = true :=
  roadSamples_side true a m

/-- The phase is kept by every action other than an update, and the flag by `Set_Outputs`. -/
theorem step_keeps (hw : Hardware) (p : SystemState_t) (t : Machine) (a : Action)
    (ht : t.current_state = p ∧ t.ped_request_flag = 0) (hb : a ≠ Action.button)
    (hu : a ≠ Action.update) :
    (step hw t a).current_state = p ∧ (step hw t a).ped_request_flag = 0 := by
  cases a
  · exact absurd rfl hb
  · exact ⟨by rw [step_current_state hw t _ hu]; exact ht.1,
      by rw [step_outputs_flag]; exact ht.2⟩
  · exact absurd rfl hu

/-- With the flag clear, the side road never occupied and no button press, the machine stays in
main green. -/
theorem stall_in_main_green (hw : Hardware) (hside : ∀ m : Machine, sideOccupied hw m = false)
    (acts : List Action) (s : Machine)
    (h0 : s.current_state = ST_MAIN_GREEN) (hf : s.ped_request_flag = 0)
    (hno : ∀ a ∈ acts, a ≠ Action.button) :
    phasePath hw s acts = List.replicate (updates acts + 1) ST_MAIN_GREEN ∧
      (run hw s acts).current_state = ST_MAIN_GREEN ∧
      (run hw s acts).ped_request_flag = 0 := by
  induction acts generalizing s with
  | nil => exact ⟨by rw [phasePath_nil, h0]; rfl, h0, hf⟩
  | cons a as ih =>
    have hno' : ∀ b ∈ as, b ≠ Action.button := fun b hb => hno b (List.mem_cons_of_mem a hb)
    cases a with
    | button => exact absurd rfl (hno _ (List.mem_cons_self _ _))
    | outputs =>
      have hk := step_keeps hw _ s Action.outputs ⟨h0, hf⟩ (by decide) (by decide)
      rw [phasePath_other hw s _ as (by decide), run_cons,
        updates_cons_other _ as (by decide)]
      exact ih _ hk.1 hk.2 hno'
    | update =>
      have hp : (FSM_Update hw s).current_state = ST_MAIN_GREEN := by
        rw [FSM_Update_current_state hw s false, h0, hside]
        simp [transitionTable, demand, hf]
      have hf' : (FSM_Update hw s).ped_request_flag = 0 := by
        rw [FSM_Update_flag, h0]; simpa using hf
      have := ih _ hp hf' hno'
      rw [phasePath_update, run_cons, updates_cons_update, h0, this.1]
      exact ⟨rfl, this.2⟩

/-! ## The effect log of `FSM_Update` -/

theorem Check_Side_Traffic_trace (hw : Hardware) (s : Machine) :
    (Check_Side_Traffic hw s).2.trace = s.trace ++ sideReads hw s.conversions := by
  have h := congrArg Prod.snd (Check_Side_Traffic_effects hw s)
  simp only at h
  rw [h, sideReads]
  split <;> rfl

theorem Check_Main_Traffic_trace (hw : Hardware) (s : Machine) :
    (Check_Main_Traffic hw s).2.trace = s.trace ++ mainReads hw s.conversions := by
  have h := congrArg Prod.snd (Check_Main_Traffic_effects hw s)
  simp only at h
  rw [h, mainReads]
  split <;> rfl

theorem Check_Main_Traffic_conversions (hw : Hardware) (s : Machine) :
    (Check_Main_Traffic hw s).2.conversions =
      if TRAFFIC_THRESHOLD < (hw s.conversions 0).value then s.conversions + 1
      else s.conversions + 2 := by
  have h := congrArg Prod.fst (Check_Main_Traffic_effects hw s)
  simp only at h
  rw [h]
  split <;> rfl

theorem mainOccupied_congr (hw : Hardware) (s t : Machine) (h : s.conversions = t.conversions) :
    (Check_Main_Traffic hw s).1 = (Check_Main_Traffic hw t).1 := by
  rw [Check_Main_Traffic_fst, Check_Main_Traffic_fst, h]

theorem sideReads_clear (hw : Hardware) (s : Machine) (h : sideOccupied hw s = false) :
    sideReads hw s.conversions =
      [Effect.delay 2, Effect.convert 1, Effect.delay 2, Effect.convert 3] := by
  have h1 : (Check_Side_Traffic hw s).1 = 0 := by simpa [sideOccupied] using h
  rw [Check_Side_Traffic_fst] at h1
  have h2 : ¬ TRAFFIC_THRESHOLD < (hw s.conversions 1).value := by
    intro hc; simp [hc] at h1
  simp [sideReads, h2]

theorem mainReads_clear (hw : Hardware) (s : Machine) (h : mainOccupied hw s = false) :
    mainReads hw s.conversions =
      [Effect.delay 2, Effect.convert 0, Effect.delay 2, Effect.convert 2] ∧
    (Check_Main_Traffic hw s).2.conversions = s.conversions + 2 := by
  have h1 : (Check_Main_Traffic hw s).1 = 0 := by simpa [mainOccupied] using h
  rw [Check_Main_Traffic_fst] at h1
  have h2 : ¬ TRAFFIC_THRESHOLD < (hw s.conversions 0).value := by
    intro hc; simp [hc] at h1
  simp [mainReads, h2, Check_Main_Traffic_conversions]

theorem acquisitionsOnly_reads (hw : Hardware) (k : Nat) :
    acquisitionsOnly (mainReads hw k) = true ∧ acquisitionsOnly (sideReads hw k) = true ∧
    ∀ j, acquisitionsOnly (mainReads hw k ++ sideReads hw j) = true := by
  refine ⟨?_, ?_, ?_⟩
  · unfold mainReads; split <;> rfl
  · unfold sideReads; split <;> rfl
  · intro j; unfold mainReads sideReads; split <;> split <;> rfl

/-- Log of `FSM_Update` in main green. -/
theorem FSM_Update_trace_main_green (hw : Hardware) (s : Machine)
    (hp : s.current_state = ST_MAIN_GREEN) :
    (FSM_Update hw s).trace = s.trace ++ ([Effect.delay 5000, Effect.flagRead] ++
      (if demand s then [Effect.stateWrite ST_MAIN_AMBER]
      else sideReads hw s.conversions ++
        (if sideOccupied hw s then [Effect.stateWrite ST_MAIN_AMBER]
        else [Effect.delay 100]))) := by
  have hside : ∀ t : Machine, t.conversions = s.conversions →
      (Check_Side_Traffic hw t).1 = (Check_Side_Traffic hw s).1 :=
    fun t ht => sideOccupied_congr hw t s ht
  simp only [FSM_Update, hp, demand, sideOccupied]
  by_cases hf : s.ped_request_flag = 0
  · by_cases hs : (Check_Side_Traffic hw s).1 = 0
    · simp [hf, hs, __delay_ms, Machine.log, setState, hside, Check_Side_Traffic_trace]
    · simp [hf, hs, __delay_ms, Machine.log, setState, hside, Check_Side_Traffic_trace]
  · simp [hf, __delay_ms, Machine.log, setState]

/-- Log of `FSM_Update` in pedestrian clear. -/
theorem FSM_Update_trace_ped_clear (hw : Hardware) (s : Machine)
    (hp : s.current_state = ST_PED_CLEAR) :
    (FSM_Update hw s).trace = s.trace ++ (Effect.delay 3000 :: (sideReads hw s.conversions ++
      [Effect.stateWrite (FSM_Update hw s).current_state])) := by
  simp only [FSM_Update, hp]
  split <;> simp [__delay_ms, Machine.log, setState, Check_Side_Traffic_trace]

theorem setState_trace (st : SystemState_t) (t : Machine) :
    (setState st t).trace = t.trace ++ [Effect.stateWrite st] := rfl

theorem delay_trace (ms : Nat) (t : Machine) :
    (__delay_ms ms t).trace = t.trace ++ [Effect.delay ms] := rfl

/-- Log of `FSM_Update` in side green. -/
theorem FSM_Update_trace_side_green (hw : Hardware) (s : Machine)
    (hp : s.current_state = ST_SIDE_GREEN) :
    (FSM_Update hw s).trace = s.trace ++ (Effect.delay 5000 :: (mainReads hw s.conversions ++
      (if mainOccupied hw s then [Effect.stateWrite ST_SIDE_AMBER]
      else sideReads hw (s.conversions + 2) ++
        (if sideOccupied hw (Check_Main_Traffic hw s).2
        then [Effect.delay 5000, Effect.stateWrite ST_SIDE_AMBER]
        else [Effect.stateWrite ST_SIDE_AMBER])))) := by
  simp only [FSM_Update, hp, mainOccupied, sideOccupied]
  have hdc : (__delay_ms 5000 s).conversions = s.conversions := rfl
  have hdt : (__delay_ms 5000 s).trace = s.trace ++ [Effect.delay 5000] := rfl
  generalize __delay_ms 5000 s = d at hdc hdt ⊢
  have hm1 : (Check_Main_Traffic hw d).1 = (Check_Main_Traffic hw s).1 :=
    mainOccupied_congr hw d s hdc
  have hmc : (Check_Main_Traffic hw d).2.conversions = (Check_Main_Traffic hw s).2.conversions := by
    rw [Check_Main_Traffic_conversions, Check_Main_Traffic_conversions, hdc]
  have hs1 : (Check_Side_Traffic hw (Check_Main_Traffic hw d).2).1 =
      (Check_Side_Traffic hw (Check_Main_Traffic hw s).2).1 :=
    sideOccupied_congr hw _ _ hmc
  rw [hm1, hs1]
  by_cases hm : (Check_Main_Traffic hw s).1 = 0
  · have hc := (mainReads_clear hw s (by simp [mainOccupied, hm])).2
    by_cases hs : (Check_Side_Traffic hw (Check_Main_Traffic hw s).2).1 = 0
    · simp only [hm, hs, ne_eq, not_true_eq_false, if_false, if_true, decide_False,
        Bool.false_eq_true, setState_trace, delay_trace, Check_Side_Traffic_trace,
        Check_Main_Traffic_trace, hdt, hdc, hmc, hc]
      simp
    · simp only [hm, hs, ne_eq, not_true_eq_false, not_false_eq_true, if_false, if_true,
        decide_False, decide_True, Bool.false_eq_true, setState_trace, delay_trace,
        Check_Side_Traffic_trace, Check_Main_Traffic_trace, hdt, hdc, hmc, hc]
      simp
  · simp only [hm, ne_eq, not_false_eq_true, if_true, decide_True, setState_trace,
      Check_Main_Traffic_trace, hdt, hdc]
    simp

/-- Log of `FSM_Update` in the phases without a sensor check. -/
theorem FSM_Update_trace_plain (hw : Hardware) (s : Machine) :
    (s.current_state = ST_MAIN_AMBER → (FSM_Update hw s).trace =
      s.trace ++ [Effect.delay 3000, Effect.stateWrite ST_ALL_RED_1]) ∧
    (s.current_state = ST_ALL_RED_1 → (FSM_Update hw s).trace =
      s.trace ++ [Effect.delay 2000, Effect.flagRead,
        Effect.stateWrite (FSM_Update hw s).current_state]) ∧
    (s.current_state = ST_PED_CROSS → (FSM_Update hw s).trace =
      s.trace ++ [Effect.flagClear, Effect.waitClear WAIT_LED_MAIN, Effect.waitClear LATB4,
        Effect.waitClear LATB5, Effect.waitClear LATB6, Effect.delay 10000,
        Effect.stateWrite ST_PED_CLEAR]) ∧
    (s.current_state = ST_SIDE_PREP → (FSM_Update hw s).trace =
      s.trace ++ [Effect.delay 2000, Effect.stateWrite ST_SIDE_GREEN]) ∧
    (s.current_state = ST_SIDE_AMBER → (FSM_Update hw s).trace =
      s.trace ++ [Effect.delay 3000, Effect.stateWrite ST_ALL_RED_2]) ∧
    (s.current_state = ST_ALL_RED_2 → (FSM_Update hw s).trace =
      s.trace ++ [Effect.delay 2000, Effect.stateWrite ST_MAIN_PREP]) ∧
    (s.current_state = ST_MAIN_PREP → (FSM_Update hw s).trace =
      s.trace ++ [Effect.delay 2000, Effect.stateWrite ST_MAIN_GREEN]) := by
  refine ⟨?_, ?_, ?_, ?_, ?_, ?_, ?_⟩ <;> intro hp
  · simp [FSM_Update, hp, __delay_ms, Machine.log, setState]
  · simp only [FSM_Update, hp]
    split <;> simp [__delay_ms, Machine.log, setState]
  · simp [FSM_Update, hp, __delay_ms, Machine.log, setState]
  · simp [FSM_Update, hp, __delay_ms, Machine.log, setState]
  · simp [FSM_Update, hp, __delay_ms, Machine.log, setState]
  · simp [FSM_Update, hp, __delay_ms, Machine.log, setState]
  · simp [FSM_Update, hp, __delay_ms, Machine.log, setState]

/-! ## History of the calls and return to main green -/

theorem foldl_logStep_fst (hw : Hardware) (acts : List Action)
    (r : Machine × List Observation) :
    (acts.foldl (logStep hw) r).1 = run hw r.1 acts := by
  induction acts generalizing r with
  | nil => rfl
  | cons a as ih => rw [List.foldl_cons, ih, run_cons]; rfl

theorem step_flag_ne_zero (hw : Hardware) (s : Machine) (a : Action) (ha : a ≠ Action.update)
    (hf : s.ped_request_flag ≠ 0) : (step hw s a).ped_request_flag ≠ 0 := by
  cases a
  · rw [step_button_flag]; decide
  · rw [step_outputs_flag]; exact hf
  · exact absurd rfl ha

theorem exitInv_logStep (hw : Hardware) (r : Machine × List Observation) (a : Action)
    (h : exitInv r.2 r.1.ped_request_flag r.1.current_state) :
    exitInv (logStep hw r a).2 (logStep hw r a).1.ped_request_flag
      (logStep hw r a).1.current_state := by
  by_cases ha : a = Action.update
  · subst ha
    have hpre := FSM_Update_predecessor hw r.1
    have hphase := FSM_Update_current_state hw r.1 false
    simp only [logStep, step, if_true]
    cases hq : (FSM_Update hw r.1).current_state with
    | ST_MAIN_AMBER =>
      rw [hq] at hpre
      have hp := hpre.2.1 rfl
      simp only [exitInv]
      refine ⟨r.2, observation hw r.1, rfl, hp, hq, ?_, ?_⟩
      · intro hd
        rw [FSM_Update_flag, hp]
        simpa [observation, demand] using hd
      · intro hd
        rw [hq, hp] at hphase
        simp only [observation] at hd ⊢
        rw [hd] at hphase
        cases hs : sideOccupied hw r.1
        · rw [hs] at hphase; simp [transitionTable] at hphase
        · rfl
    | ST_ALL_RED_1 =>
      rw [hq] at hpre
      have hp := hpre.2.2.1 rfl
      rw [hp] at h
      simp only [exitInv] at h ⊢
      obtain ⟨pre, a, hh, h1, h2, h3, h4⟩ := h
      refine ⟨pre, a, observation hw r.1, by rw [hh]; simp, h1, h2, ?_, h4, hp, hq⟩
      intro hd
      rw [FSM_Update_flag, hp]
      simpa using h3 hd
    | _ => simp only [exitInv]
  · simp only [logStep, ha, if_false]
    rw [step_current_state hw r.1 a ha]
    cases hq : r.1.current_state with
    | ST_MAIN_AMBER =>
      rw [hq] at h
      simp only [exitInv] at h ⊢
      obtain ⟨pre, a', hh, h1, h2, h3, h4⟩ := h
      exact ⟨pre, a', hh, h1, h2, fun hd => step_flag_ne_zero hw r.1 a ha (h3 hd), h4⟩
    | ST_ALL_RED_1 =>
      rw [hq] at h
      simp only [exitInv] at h ⊢
      obtain ⟨pre, a', b, hh, h1, h2, h3, h4, h5, h6⟩ := h
      exact ⟨pre, a', b, hh, h1, h2, fun hd => step_flag_ne_zero hw r.1 a ha (h3 hd), h4, h5,
        h6⟩
    | _ => simp only [exitInv]

theorem exitInv_foldl (hw : Hardware) (acts : List Action) (r : Machine × List Observation)
    (h : exitInv r.2 r.1.ped_request_flag r.1.current_state) :
    exitInv (acts.foldl (logStep hw) r).2 (acts.foldl (logStep hw) r).1.ped_request_flag
      (acts.foldl (logStep hw) r).1.current_state := by
  induction acts generalizing r with
  | nil => exact h
  | cons a as ih => exact ih _ (exitInv_logStep hw r a h)

theorem mainRank_step (hw : Hardware) (s : Machine) (h : s.current_state ≠ ST_MAIN_GREEN) :
    s.current_state.toNat < (FSM_Update hw s).current_state.toNat ∨
      (s.current_state = ST_MAIN_PREP ∧ (FSM_Update hw s).current_state = ST_MAIN_GREEN) := by
  rw [FSM_Update_current_state hw s false]
  cases hp : s.current_state <;> cases hd : demand s <;> cases hs : sideOccupied hw s <;>
    simp_all [transitionTable, SystemState_t.toNat]

theorem mainRank_decreases (hw : Hardware) (s : Machine) (h : s.current_state ≠ ST_MAIN_GREEN) :
    mainRank (FSM_Update hw s).current_state < mainRank s.current_state := by
  rw [FSM_Update_current_state hw s false]
  cases hp : s.current_state <;> cases hd : demand s <;> cases hs : sideOccupied hw s <;>
    simp_all [transitionTable, mainRank, SystemState_t.toNat]

theorem mainRank_zero (p : SystemState_t) (h : mainRank p = 0) : p = ST_MAIN_GREEN := by
  cases p <;> simp_all [mainRank, SystemState_t.toNat]

theorem mainRank_le (p : SystemState_t) : mainRank p ≤ 9 := by
  cases p <;> simp [mainRank, SystemState_t.toNat]

/-- A machine is in main green within `mainRank` updates. -/
theorem main_green_within (hw : Hardware) (acts : List Action) (s : Machine) (k : Nat)
    (hk : mainRank s.current_state ≤ k) (hu : k ≤ updates acts) :
    ST_MAIN_GREEN ∈ (phasePath hw s acts).take (k + 1) := by
  induction acts generalizing s k with
  | nil =>
    have : k = 0 := by simpa [updates] using hu
    subst this
    rw [phasePath_nil, mainRank_zero s.current_state (by omega)]
    simp
  | cons a as ih =>
    by_cases ha : a = Action.update
    · subst ha
      rw [phasePath_update, List.take_succ_cons]
      by_cases hp : s.current_state = ST_MAIN_GREEN
      · rw [hp]; exact List.mem_cons_self _ _
      · have hdec := mainRank_decreases hw s hp
        rw [updates_cons_update] at hu
        obtain ⟨k', rfl⟩ : ∃ k', k = k' + 1 := ⟨k - 1, by omega⟩
        exact List.mem_cons_of_mem _ (ih _ k' (by omega) (by omega))
    · rw [phasePath_other hw s a as ha]
      rw [updates_cons_other a as ha] at hu
      exact ih _ k (by rw [step_current_state hw s a ha]; exact hk) hu

/-! ## The wait indicator -/

/-- The wait indicator reflects the latch after start-up and `System_Init`, and the handler,
`Set_Outputs` and an `FSM_Update` call that no handler run interrupts preserve that. -/
theorem wait_reflects_uninterrupted (hw : Hardware) (st : SystemState_t) (m s : Machine)
    (h : WaitReflects s) :
    WaitReflects (System_Init (initGlobals m)) ∧
    (WaitReflects (ISR s) ∧ WaitReflects (buttonPress s) ∧
      (buttonPress s).ped_request_flag = 1 ∧
      waitLines (buttonPress s) = [true, true, true, true]) ∧
    (WaitReflects (FSM_Update hw s) ∧
      (s.current_state = ST_PED_CROSS →
        (FSM_Update hw s).ped_request_flag = 0 ∧
        waitLines (FSM_Update hw s) = [false, false, false, false]) ∧
      (s.current_state ≠ ST_PED_CROSS →
        (FSM_Update hw s).ped_request_flag = s.ped_request_flag ∧
        (FSM_Update hw s).LATB = s.LATB)) ∧
    (WaitReflects (Set_Outputs st s) ∧
      Set_Outputs st s = { s with LATD := (Set_Outputs st s).LATD }) := by
  have hpress : ∀ t : Machine, WaitReflects (buttonPress t) := by
    intro t
    have := waitLines_buttonPress t
    simp [WaitReflects, this.1, this.2]
  have hcross : s.current_state = ST_PED_CROSS →
      (FSM_Update hw s).ped_request_flag = 0 ∧
      waitLines (FSM_Update hw s) = [false, false, false, false] := by
    intro hp
    refine ⟨by simp [FSM_Update_flag, hp], ?_⟩
    simp only [waitLines, FSM_Update_LATB, hp, if_true]
    exact waitLines_clear s.LATB
  have hother : s.current_state ≠ ST_PED_CROSS →
      (FSM_Update hw s).ped_request_flag = s.ped_request_flag ∧
      (FSM_Update hw s).LATB = s.LATB := by
    intro hp
    simp [FSM_Update_flag, FSM_Update_LATB, hp]
  refine ⟨?_, ⟨?_, hpress s, (waitLines_buttonPress s).1, (waitLines_buttonPress s).2⟩,
    ⟨?_, hcross, hother⟩, ?_, Set_Outputs_frame st s⟩
  · simp [WaitReflects, waitLines, System_Init, initGlobals, getBit]
  · by_cases hi : s.INT0IF = true
    · have : ISR s = buttonPress s := by
        simp only [buttonPress, ISR, hi, if_true]
      rw [this]; exact hpress s
    · simpa [ISR, hi] using h
  · by_cases hp : s.current_state = ST_PED_CROSS
    · have := hcross hp
      simp [WaitReflects, this.1, this.2]
    · have := hother hp
      simpa [WaitReflects, waitLines, this.1, this.2] using h
  · rw [Set_Outputs_frame]
    simpa [WaitReflects, waitLines] using h

/-- Without a button edge inside the call, the statement-by-statement crossing case is the
`ST_PED_CROSS` case of `FSM_Update`. -/
theorem pedCrossInterruptible_quiet (hw : Hardware) (s : Machine)
    (hp : s.current_state = ST_PED_CROSS) :
    pedCrossInterruptible (fun _ => false) s = FSM_Update hw s := by
  simp only [FSM_Update, hp, pedCrossInterruptible, interruptPoint, Bool.false_eq_true, if_false]

/-! ## Claims -/

/-- C1 (mutual exclusion): for each of the ten phases and whatever the signal bank held before,
the bank left by `Set_Outputs` asserts at most one of the go lines `MAIN_GREEN`, `SIDE_GREEN`,
`PED_GREEN`. -/
theorem C1_mutual_exclusion (st : SystemState_t) (s : Machine) :
    ([MAIN_GREEN, SIDE_GREEN, PED_GREEN].filter
      (fun pin => getBit (Set_Outputs st s).LATD pin)).length ≤ 1 := by
  cases st <;> simp only [Set_Outputs] <;> decide

/-- C2 (transition table): the phase left by `FSM_Update` is the entry of the specification's
transition table for the current phase, the demand flag and the side-road reading taken by the
call, whatever the main-road reading; and every combination of phase, flag and readings is
presented by some machine and converter. -/
theorem C2_transition_table :
    (∀ (hw : Hardware) (s : Machine) (main_occupied : Bool),
      (FSM_Update hw s).current_state =
        transitionTable s.current_state (demand s) main_occupied (sideOccupied hw s)) ∧
    (∀ (phase : SystemState_t) (d m sd : Bool), ∃ (hw : Hardware) (s : Machine),
      s.current_state = phase ∧ demand s = d ∧ mainOccupied hw s = m ∧ sideOccupied hw s = sd ∧
      (FSM_Update hw s).current_state = transitionTable phase d m sd) := by
  refine ⟨FSM_Update_current_state, ?_⟩
  intro phase d m sd
  refine ⟨roadSamples (if m then 287 else 0) (if sd then 287 else 0),
    machineAt phase (if d then 1 else 0), rfl, ?_, roadSamples_main _ _ _, roadSamples_side _ _ _, ?_⟩
  · cases d <;> simp [demand, machineAt]
  · rw [FSM_Update_current_state _ _ m, roadSamples_side]
    cases d <;> simp [demand, machineAt]

/-- C3 (forward sequencing): every run of the machine that starts in `ST_MAIN_GREEN` and is in
`ST_SIDE_GREEN` at its end, under any button presses and sensor readings, has a phase path that
visits main amber, all-red 1, side prep and side green in that order; precisely, the path ends
with main green, main amber, all-red 1, (pedestrian cross, pedestrian clear,) side prep, side
green.  Side green is entered only from side prep, all-red 1 only from main amber and main
amber only from main green. -/
theorem C3_forward_sequencing (hw : Hardware) (s : Machine) (acts : List Action)
    (h0 : s.current_state = ST_MAIN_GREEN)
    (hend : (run hw s acts).current_state = ST_SIDE_GREEN) :
    List.Sublist [ST_MAIN_GREEN, ST_MAIN_AMBER, ST_ALL_RED_1, ST_SIDE_PREP, ST_SIDE_GREEN]
      (phasePath hw s acts) ∧
    ([ST_MAIN_GREEN, ST_MAIN_AMBER, ST_ALL_RED_1, ST_SIDE_PREP, ST_SIDE_GREEN] <:+
        phasePath hw s acts ∨
      [ST_MAIN_GREEN, ST_MAIN_AMBER, ST_ALL_RED_1, ST_PED_CROSS, ST_PED_CLEAR, ST_SIDE_PREP,
        ST_SIDE_GREEN] <:+ phasePath hw s acts) ∧
    (∀ (hw' : Hardware) (t : Machine),
      ((FSM_Update hw' t).current_state = ST_SIDE_GREEN → t.current_state = ST_SIDE_PREP) ∧
      ((FSM_Update hw' t).current_state = ST_ALL_RED_1 → t.current_state = ST_MAIN_AMBER) ∧
      ((FSM_Update hw' t).current_state = ST_MAIN_AMBER → t.current_state = ST_MAIN_GREEN)) := by
  have hinv := seqInv_foldl hw acts (s, []) (by rw [h0]; trivial)
  have hsuf : [ST_MAIN_GREEN, ST_MAIN_AMBER, ST_ALL_RED_1, ST_SIDE_PREP, ST_SIDE_GREEN] <:+
        phasePath hw s acts ∨
      [ST_MAIN_GREEN, ST_MAIN_AMBER, ST_ALL_RED_1, ST_PED_CROSS, ST_PED_CLEAR, ST_SIDE_PREP,
        ST_SIDE_GREEN] <:+ phasePath hw s acts := by
    simp only [run, execute] at hend
    rw [hend] at hinv
    simp only [phasePath, visited, run, execute, hend]
    rcases hinv with h | h
    · exact Or.inl (suffix_snoc _ _ _ h)
    · exact Or.inr (suffix_snoc _ _ _ h)
  refine ⟨?_, hsuf, ?_⟩
  · rcases hsuf with h | h
    · exact h.sublist
    · exact List.Sublist.trans (by decide) h.sublist
  · intro hw' t
    have := FSM_Update_predecessor hw' t
    exact ⟨this.2.2.2.2.2.2, this.2.2.1, this.2.1⟩

/-- Witness for C3: four iterations of the main loop with side traffic present lead from
main green to side green. -/
theorem C3_forward_sequencing_witness :
    List.Sublist [ST_MAIN_GREEN, ST_MAIN_AMBER, ST_ALL_RED_1, ST_SIDE_PREP, ST_SIDE_GREEN]
      (phasePath (constantSample 287) (machineAt ST_MAIN_GREEN 0) (mainLoop 4)) :=
  (C3_forward_sequencing (constantSample 287) (machineAt ST_MAIN_GREEN 0) (mainLoop 4)
    rfl (by decide)).1

/-- C4 (return sequencing): from side green, under any button presses and sensor readings, the
next four `FSM_Update` calls yield side amber, all-red 2, main prep and main green, in that
order and nothing else; main green is entered only from main prep or from itself. -/
theorem C4_return_sequencing (hw : Hardware) (s : Machine) (acts : List Action)
    (h0 : s.current_state = ST_SIDE_GREEN) (h4 : updates acts = 4) :
    phasePath hw s acts =
      [ST_SIDE_GREEN, ST_SIDE_AMBER, ST_ALL_RED_2, ST_MAIN_PREP, ST_MAIN_GREEN] ∧
    (∀ (hw' : Hardware) (t : Machine), (FSM_Update hw' t).current_state = ST_MAIN_GREEN →
      t.current_state = ST_MAIN_PREP ∨ t.current_state = ST_MAIN_GREEN) := by
  refine ⟨?_, fun hw' t => (FSM_Update_predecessor hw' t).1⟩
  refine phasePath_forced hw ST_SIDE_GREEN ST_SIDE_AMBER _ 3 (by intro d m sd; simp [transitionTable]) ?_ acts s h0 h4
  refine phasePath_forced hw ST_SIDE_AMBER ST_ALL_RED_2 _ 2 (fun _ _ _ => rfl) ?_
  refine phasePath_forced hw ST_ALL_RED_2 ST_MAIN_PREP _ 1 (fun _ _ _ => rfl) ?_
  refine phasePath_forced hw ST_MAIN_PREP ST_MAIN_GREEN _ 0 (fun _ _ _ => rfl) ?_
  intro acts s hs hn
  rw [phasePath_zero hw acts s hn, hs]

/-- Witness for C4: a button press in the middle of the four loop iterations changes nothing. -/
theorem C4_return_sequencing_witness :
    phasePath (constantSample 0) (machineAt ST_SIDE_GREEN 0)
      (mainLoop 2 ++ Action.button :: mainLoop 2) =
      [ST_SIDE_GREEN, ST_SIDE_AMBER, ST_ALL_RED_2, ST_MAIN_PREP, ST_MAIN_GREEN] :=
  (C4_return_sequencing (constantSample 0) (machineAt ST_SIDE_GREEN 0)
    (mainLoop 2 ++ Action.button :: mainLoop 2) rfl (by decide)).1

/-- C5 (latch idempotence): running the button handler `N > 1` times leaves the same machine,
hence the same flag and wait lights, as running it once; with no further presses the phase path
then holds at most one pedestrian crossing, exactly one as soon as nine updates have run, and
the flag is clear as soon as ten have run; the update taken in the crossing phase leaves the
flag false. -/
theorem C5_latch_idempotence (hw : Hardware) (s : Machine) (N : Nat) (acts : List Action)
    (hN : 1 < N) (hno : ∀ a ∈ acts, a ≠ Action.button) :
    buttonPress^[N] s = buttonPress s ∧
    (phasePath hw (buttonPress^[N] s) acts).count ST_PED_CROSS ≤ 1 ∧
    (9 ≤ updates acts → (phasePath hw (buttonPress^[N] s) acts).count ST_PED_CROSS = 1) ∧
    (10 ≤ updates acts → (run hw (buttonPress^[N] s) acts).ped_request_flag = 0) ∧
    (∀ (hw' : Hardware) (t : Machine), t.current_state = ST_PED_CROSS →
      (FSM_Update hw' t).ped_request_flag = 0) := by
  have hiter : buttonPress^[N] s = buttonPress s := by
    obtain ⟨n, rfl⟩ : ∃ n, N = n + 1 := ⟨N - 1, by omega⟩
    exact buttonPress_iterate s n
  have hflag : (buttonPress s).ped_request_flag ≠ 0 := by
    rw [(waitLines_buttonPress s).1]; decide
  refine ⟨hiter, ?_, ?_, ?_, ?_⟩
  · rw [hiter]
    by_cases hp : (buttonPress s).current_state = ST_PED_CROSS
    · exact le_of_eq (one_cross_from_cross hw acts _ hno hp).1
    · exact (one_cross_with_demand hw acts _ hno hflag hp).1
  · intro h9
    rw [hiter]
    by_cases hp : (buttonPress s).current_state = ST_PED_CROSS
    · exact (one_cross_from_cross hw acts _ hno hp).1
    · exact (one_cross_with_demand hw acts _ hno hflag hp).2.1
        (le_trans (pedRank_le _) h9)
  · intro h10
    rw [hiter]
    by_cases hp : (buttonPress s).current_state = ST_PED_CROSS
    · exact (one_cross_from_cross hw acts _ hno hp).2 (by omega)
    · exact (one_cross_with_demand hw acts _ hno hflag hp).2.2
        (by have := pedRank_le (buttonPress s).current_state; omega)
  · intro hw' t ht
    rw [FSM_Update_flag]; simp [ht]

/-- Witness for C5: three presses in pedestrian clear with side traffic present, then ten
iterations of the main loop: one crossing, nine updates later. -/
theorem C5_latch_idempotence_witness :
    (phasePath (constantSample 1023) (buttonPress^[3] (machineAt ST_PED_CLEAR 0))
      (mainLoop 10)).count ST_PED_CROSS = 1 :=
  (C5_latch_idempotence (constantSample 1023) (machineAt ST_PED_CLEAR 0) 3 (mainLoop 10)
    (by decide) (by decide)).2.2.1 (by decide)

/-- C6 as stated fails: after start-up, a press and three loop iterations the machine is in
pedestrian cross; a flag set there (a second press) is cleared by that phase's update and is
clear when all-red 1 is next evaluated, nine iterations later. -/
theorem C6_counterexample :
    (run (constantSample 1023) startUp
      (Action.button :: mainLoop 3 ++ [Action.button])).current_state = ST_PED_CROSS ∧
    (run (constantSample 1023) startUp
      (Action.button :: mainLoop 3 ++ [Action.button])).ped_request_flag = 1 ∧
    phasePath (constantSample 1023)
      (run (constantSample 1023) startUp (Action.button :: mainLoop 3 ++ [Action.button]))
      (mainLoop 9) =
      [ST_PED_CROSS, ST_PED_CLEAR, ST_SIDE_PREP, ST_SIDE_GREEN, ST_SIDE_AMBER, ST_ALL_RED_2,
        ST_MAIN_PREP, ST_MAIN_GREEN, ST_MAIN_AMBER, ST_ALL_RED_1] ∧
    (run (constantSample 1023)
      (run (constantSample 1023) startUp (Action.button :: mainLoop 3 ++ [Action.button]))
      (mainLoop 9)).ped_request_flag = 0 := by
  decide

/-- C6, amended: in every phase other than pedestrian cross `FSM_Update` leaves the flag
unchanged, whatever the readings; `Set_Outputs` never changes it; the handler leaves it or sets
it to 1, and a button press sets it; the pedestrian-cross update clears it.  Hence a flag that
is set while the machine is in any phase other than pedestrian cross is still set, under any
further presses and readings, as long as no update has run in all-red 1, and the machine has
not entered the crossing phase by then. -/
theorem C6_latch_lifecycle (hw : Hardware) (s : Machine) (acts : List Action)
    (hf : s.ped_request_flag ≠ 0) (hp : s.current_state ≠ ST_PED_CROSS)
    (hv : ST_ALL_RED_1 ∉ visited hw s acts) :
    (∀ (hw' : Hardware) (t : Machine), t.current_state ≠ ST_PED_CROSS →
      (FSM_Update hw' t).ped_request_flag = t.ped_request_flag) ∧
    (∀ (st : SystemState_t) (t : Machine),
      (Set_Outputs st t).ped_request_flag = t.ped_request_flag) ∧
    (∀ t : Machine, (ISR t).ped_request_flag = t.ped_request_flag ∨
      (ISR t).ped_request_flag = 1) ∧
    (∀ t : Machine, (buttonPress t).ped_request_flag = 1) ∧
    (∀ (hw' : Hardware) (t : Machine), t.current_state = ST_PED_CROSS →
      (FSM_Update hw' t).ped_request_flag = 0) ∧
    (run hw s acts).ped_request_flag ≠ 0 ∧
    (run hw s acts).current_state ≠ ST_PED_CROSS := by
  refine ⟨?_, ?_, ?_, fun t => (waitLines_buttonPress t).1, ?_,
    flag_kept_until_all_red hw acts s hf hp hv⟩
  · intro hw' t ht
    rw [FSM_Update_flag]; simp [ht]
  · intro st t
    rw [Set_Outputs_frame]
  · intro t
    by_cases hi : t.INT0IF = true
    · right; simp [ISR, hi]
    · left; simp [ISR, hi]
  · intro hw' t ht
    rw [FSM_Update_flag]; simp [ht]

/-- Witness for C6: a press in pedestrian clear; eight loop iterations later, with a second press
on the way, the machine stands in all-red 1 with the flag still set. -/
theorem C6_latch_lifecycle_witness :
    (run (constantSample 1023) (buttonPress (machineAt ST_PED_CLEAR 0))
      (mainLoop 5 ++ Action.button :: mainLoop 3)).ped_request_flag ≠ 0 :=
  (C6_latch_lifecycle (constantSample 1023) (buttonPress (machineAt ST_PED_CLEAR 0))
    (mainLoop 5 ++ Action.button :: mainLoop 3) (by decide) (by decide)
    (by decide)).2.2.2.2.2.1

/-- C7 (wait indicator reflects the latch) fails on the code inside the pedestrian-cross call:
the machine in pedestrian cross with a pending request satisfies the predicate, and when a
button edge arrives after the store that clears the flag and before the stores that clear the
wait lights, the call returns with the flag set and all four wait lines off. -/
theorem C7_interrupted_crossing :
    crossingPending.current_state = ST_PED_CROSS ∧
    WaitReflects crossingPending ∧
    (pedCrossInterruptible edgeAfterFlagClear crossingPending).ped_request_flag = 1 ∧
    waitLines (pedCrossInterruptible edgeAfterFlagClear crossingPending) =
      [false, false, false, false] ∧
    ¬ WaitReflects (pedCrossInterruptible edgeAfterFlagClear crossingPending) := by
  decide

/-- C8 (occupancy threshold): when the two channels of a road deliver samples `a` and `b` in
`[0, 1023]` (channels 0 and 2 for `Check_Main_Traffic`, 1 and 3 for `Check_Side_Traffic`), the
function returns 1 if `a > 286` or `b > 286` and 0 otherwise. -/
theorem C8_threshold (hw : Hardware) (s : Machine) (a0 a2 a1 a3 : Nat)
    (h0 : a0 ≤ 1023) (h2 : a2 ≤ 1023) (h1 : a1 ≤ 1023) (h3 : a3 ≤ 1023)
    (c0 : (hw s.conversions 0).carries a0) (c2 : (hw (s.conversions + 1) 2).carries a2)
    (c1 : (hw s.conversions 1).carries a1) (c3 : (hw (s.conversions + 1) 3).carries a3) :
    (Check_Main_Traffic hw s).1 = (if a0 > 286 ∨ a2 > 286 then 1 else 0) ∧
    (Check_Side_Traffic hw s).1 = (if a1 > 286 ∨ a3 > 286 then 1 else 0) := by
  rw [Check_Main_Traffic_fst, Check_Side_Traffic_fst, carries_value _ _ h0 c0,
    carries_value _ _ h2 c2, carries_value _ _ h1 c1, carries_value _ _ h3 c3]
  simp [TRAFFIC_THRESHOLD]

/-- Witness for C8: with 286 on both first channels, 287 on the second main channel and 0 on
the second side channel, the main road is occupied and the side road is not. -/
theorem C8_threshold_witness :
    (Check_Main_Traffic boundaryHardware (machineAt ST_SIDE_GREEN 0)).1 = 1 ∧
    (Check_Side_Traffic boundaryHardware (machineAt ST_SIDE_GREEN 0)).1 = 0 :=
  C8_threshold boundaryHardware (machineAt ST_SIDE_GREEN 0) 286 287 286 0
    (by decide) (by decide) (by decide) (by decide)
    (by decide) (by decide) (by decide) (by decide)

/-- C9 as stated fails: with a first sample of 287 the call performs one conversion, not two. -/
theorem C9_counterexample :
    (Check_Main_Traffic (constantSample 287) (machineAt ST_SIDE_GREEN 0)).2.conversions = 1 ∧
    (Check_Main_Traffic (constantSample 287) (machineAt ST_SIDE_GREEN 0)).2.trace =
      [Effect.delay 2, Effect.convert 0] ∧
    (Check_Main_Traffic (constantSample 287) (machineAt ST_SIDE_GREEN 0)).2.conversions ≠
      (machineAt ST_SIDE_GREEN 0).conversions + 2 := by
  decide

/-- C9, amended: every call converts the road's first channel anew; it converts the second
channel exactly when the first value does not exceed the threshold.  So a call performs one
conversion if the first value exceeds 286 and two otherwise, and its answer is computed from
the conversions it has just made. -/
theorem C9_sampling (hw : Hardware) (s : Machine) :
    ((Check_Main_Traffic hw s).2.conversions, (Check_Main_Traffic hw s).2.trace) =
      (if TRAFFIC_THRESHOLD < (hw s.conversions 0).value then
        (s.conversions + 1, s.trace ++ [Effect.delay 2, Effect.convert 0])
      else
        (s.conversions + 2,
          s.trace ++ [Effect.delay 2, Effect.convert 0, Effect.delay 2, Effect.convert 2])) ∧
    ((Check_Side_Traffic hw s).2.conversions, (Check_Side_Traffic hw s).2.trace) =
      (if TRAFFIC_THRESHOLD < (hw s.conversions 1).value then
        (s.conversions + 1, s.trace ++ [Effect.delay 2, Effect.convert 1])
      else
        (s.conversions + 2,
          s.trace ++ [Effect.delay 2, Effect.convert 1, Effect.delay 2, Effect.convert 3])) ∧
    (Check_Main_Traffic hw s).1 =
      (if TRAFFIC_THRESHOLD < (hw s.conversions 0).value ∨
          TRAFFIC_THRESHOLD < (hw (s.conversions + 1) 2).value then 1 else 0) ∧
    (Check_Side_Traffic hw s).1 =
      (if TRAFFIC_THRESHOLD < (hw s.conversions 1).value ∨
          TRAFFIC_THRESHOLD < (hw (s.conversions + 1) 3).value then 1 else 0) :=
  ⟨Check_Main_Traffic_effects hw s, Check_Side_Traffic_effects hw s,
    Check_Main_Traffic_fst hw s, Check_Side_Traffic_fst hw s⟩

/-- C10 (scenario A, pedestrian only): from main green with the flag set, no button presses
and the side road never occupied, six `FSM_Update` calls walk main amber, all-red 1, pedestrian
cross, pedestrian clear, main prep, main green; the main-road readings are arbitrary. -/
theorem C10_scenario_A (hw : Hardware) (s : Machine) (acts : List Action)
    (h0 : s.current_state = ST_MAIN_GREEN) (hf : s.ped_request_flag ≠ 0)
    (hside : ∀ m : Machine, sideOccupied hw m = false)
    (hno : ∀ a ∈ acts, a ≠ Action.button) (h6 : updates acts = 6) :
    phasePath hw s acts =
      [ST_MAIN_GREEN, ST_MAIN_AMBER, ST_ALL_RED_1, ST_PED_CROSS, ST_PED_CLEAR, ST_MAIN_PREP,
        ST_MAIN_GREEN] := by
  have hstay : ∀ (p : SystemState_t) (t : Machine) (a : Action),
      (t.current_state = p ∧ t.ped_request_flag ≠ 0) → a ≠ Action.button →
      a ≠ Action.update →
      ((step hw t a).current_state = p ∧ (step hw t a).ped_request_flag ≠ 0) := by
    intro p t a ht hb hu
    cases a
    · exact absurd rfl hb
    · exact ⟨by rw [step_current_state hw t _ hu]; exact ht.1,
        by rw [step_outputs_flag]; exact ht.2⟩
    · exact absurd rfl hu
  have hstay' : ∀ (p : SystemState_t) (t : Machine) (a : Action),
      t.current_state = p → a ≠ Action.button → a ≠ Action.update →
      (step hw t a).current_state = p := by
    intro p t a ht _ hu
    rw [step_current_state hw t a hu]; exact ht
  refine phasePath_link hw (fun a => a ≠ Action.button)
    (fun t => t.current_state = ST_MAIN_GREEN ∧ t.ped_request_flag ≠ 0)
    (fun t => t.current_state = ST_MAIN_AMBER ∧ t.ped_request_flag ≠ 0)
    ST_MAIN_GREEN _ 5 (fun _ h => h.1) (hstay _) ?_ ?_ acts s ⟨h0, hf⟩ hno h6
  · intro t ht
    refine ⟨?_, by rw [FSM_Update_flag, ht.1]; simpa using ht.2⟩
    rw [FSM_Update_current_state hw t false, ht.1]
    simp [transitionTable, demand, ht.2]
  refine phasePath_link hw (fun a => a ≠ Action.button)
    (fun t => t.current_state = ST_MAIN_AMBER ∧ t.ped_request_flag ≠ 0)
    (fun t => t.current_state = ST_ALL_RED_1 ∧ t.ped_request_flag ≠ 0)
    ST_MAIN_AMBER _ 4 (fun _ h => h.1) (hstay _) ?_ ?_
  · intro t ht
    refine ⟨?_, by rw [FSM_Update_flag, ht.1]; simpa using ht.2⟩
    rw [FSM_Update_current_state hw t false, ht.1]
    simp [transitionTable]
  refine phasePath_link hw (fun a => a ≠ Action.button)
    (fun t => t.current_state = ST_ALL_RED_1 ∧ t.ped_request_flag ≠ 0)
    (fun t => t.current_state = ST_PED_CROSS)
    ST_ALL_RED_1 _ 3 (fun _ h => h.1) (hstay _) ?_ ?_
  · intro t ht
    show (FSM_Update hw t).current_state = ST_PED_CROSS
    rw [FSM_Update_current_state hw t false, ht.1]
    simp [transitionTable, demand, ht.2]
  refine phasePath_link hw (fun a => a ≠ Action.button)
    (fun t => t.current_state = ST_PED_CROSS) (fun t => t.current_state = ST_PED_CLEAR)
    ST_PED_CROSS _ 2 (fun _ h => h) (hstay' _) ?_ ?_
  · intro t ht
    show (FSM_Update hw t).current_state = ST_PED_CLEAR
    rw [FSM_Update_current_state hw t false, ht]
    simp [transitionTable]
  refine phasePath_link hw (fun a => a ≠ Action.button)
    (fun t => t.current_state = ST_PED_CLEAR) (fun t => t.current_state = ST_MAIN_PREP)
    ST_PED_CLEAR _ 1 (fun _ h => h) (hstay' _) ?_ ?_
  · intro t ht
    show (FSM_Update hw t).current_state = ST_MAIN_PREP
    rw [FSM_Update_current_state hw t false, ht, hside]
    simp [transitionTable]
  refine phasePath_link hw (fun a => a ≠ Action.button)
    (fun t => t.current_state = ST_MAIN_PREP) (fun t => t.current_state = ST_MAIN_GREEN)
    ST_MAIN_PREP _ 0 (fun _ h => h) (hstay' _) ?_ ?_
  · intro t ht
    show (FSM_Update hw t).current_state = ST_MAIN_GREEN
    rw [FSM_Update_current_state hw t false, ht]
    simp [transitionTable]
  intro acts t ht _ hn
  rw [phasePath_zero hw acts t hn, ht]

/-- Witness for C10: six iterations of the main loop, main road occupied, side road empty. -/
theorem C10_scenario_A_witness :
    phasePath (roadSamples 1023 0) (machineAt ST_MAIN_GREEN 1) (mainLoop 6) =
      [ST_MAIN_GREEN, ST_MAIN_AMBER, ST_ALL_RED_1, ST_PED_CROSS, ST_PED_CLEAR, ST_MAIN_PREP,
        ST_MAIN_GREEN] :=
  C10_scenario_A (roadSamples 1023 0) (machineAt ST_MAIN_GREEN 1) (mainLoop 6) rfl (by decide)
    (roadSamples_side_clear 1023) (by decide) (by decide)

/-- C11 (scenario B, side traffic only): from main green with the flag clear, no button press
and the side road occupied at every check, eight `FSM_Update` calls walk main amber, all-red 1,
side prep, side green, side amber, all-red 2, main prep, main green, so neither pedestrian
phase is visited; the main-road readings are arbitrary. -/
theorem C11_scenario_B (hw : Hardware) (s : Machine) (acts : List Action)
    (h0 : s.current_state = ST_MAIN_GREEN) (hf : s.ped_request_flag = 0)
    (hside : ∀ m : Machine, sideOccupied hw m = true)
    (hno : ∀ a ∈ acts, a ≠ Action.button) (h8 : updates acts = 8) :
    phasePath hw s acts =
      [ST_MAIN_GREEN, ST_MAIN_AMBER, ST_ALL_RED_1, ST_SIDE_PREP, ST_SIDE_GREEN, ST_SIDE_AMBER,
        ST_ALL_RED_2, ST_MAIN_PREP, ST_MAIN_GREEN] ∧
    ST_PED_CROSS ∉ phasePath hw s acts ∧ ST_PED_CLEAR ∉ phasePath hw s acts := by
  have hpath : phasePath hw s acts =
      [ST_MAIN_GREEN, ST_MAIN_AMBER, ST_ALL_RED_1, ST_SIDE_PREP, ST_SIDE_GREEN, ST_SIDE_AMBER,
        ST_ALL_RED_2, ST_MAIN_PREP, ST_MAIN_GREEN] := by
    refine phasePath_link hw (fun a => a ≠ Action.button)
      (fun t => t.current_state = ST_MAIN_GREEN ∧ t.ped_request_flag = 0)
      (fun t => t.current_state = ST_MAIN_AMBER ∧ t.ped_request_flag = 0)
      ST_MAIN_GREEN _ 7 (fun _ h => h.1) (step_keeps hw _) ?_ ?_ acts s ⟨h0, hf⟩ hno h8
    · intro t ht
      refine ⟨?_, by rw [FSM_Update_flag, ht.1]; simpa using ht.2⟩
      rw [FSM_Update_current_state hw t false, ht.1, hside]
      simp [transitionTable]
    refine phasePath_link hw (fun a => a ≠ Action.button)
      (fun t => t.current_state = ST_MAIN_AMBER ∧ t.ped_request_flag = 0)
      (fun t => t.current_state = ST_ALL_RED_1 ∧ t.ped_request_flag = 0)
      ST_MAIN_AMBER _ 6 (fun _ h => h.1) (step_keeps hw _) ?_ ?_
    · intro t ht
      refine ⟨?_, by rw [FSM_Update_flag, ht.1]; simpa using ht.2⟩
      rw [FSM_Update_current_state hw t false, ht.1]
      simp [transitionTable]
    refine phasePath_link hw (fun a => a ≠ Action.button)
      (fun t => t.current_state = ST_ALL_RED_1 ∧ t.ped_request_flag = 0)
      (fun t => t.current_state = ST_SIDE_PREP)
      ST_ALL_RED_1 _ 5 (fun _ h => h.1) (step_keeps hw _) ?_ ?_
    · intro t ht
      show (FSM_Update hw t).current_state = ST_SIDE_PREP
      rw [FSM_Update_current_state hw t false, ht.1]
      simp [transitionTable, demand, ht.2]
    intro acts t ht _ hn
    refine phasePath_forced hw ST_SIDE_PREP ST_SIDE_GREEN _ 4 (fun _ _ _ => rfl) ?_ acts t ht hn
    refine phasePath_forced hw ST_SIDE_GREEN ST_SIDE_AMBER _ 3
      (by intro d m sd; simp [transitionTable]) ?_
    refine phasePath_forced hw ST_SIDE_AMBER ST_ALL_RED_2 _ 2 (fun _ _ _ => rfl) ?_
    refine phasePath_forced hw ST_ALL_RED_2 ST_MAIN_PREP _ 1 (fun _ _ _ => rfl) ?_
    refine phasePath_forced hw ST_MAIN_PREP ST_MAIN_GREEN _ 0 (fun _ _ _ => rfl) ?_
    intro acts t ht hn
    rw [phasePath_zero hw acts t hn, ht]
  rw [hpath]
  exact ⟨rfl, by decide, by decide⟩

/-- Witness for C11: eight iterations of the main loop from start-up with the side road
occupied and the main road empty. -/
theorem C11_scenario_B_witness :
    phasePath (roadSamples 0 287) startUp (mainLoop 8) =
      [ST_MAIN_GREEN, ST_MAIN_AMBER, ST_ALL_RED_1, ST_SIDE_PREP, ST_SIDE_GREEN, ST_SIDE_AMBER,
        ST_ALL_RED_2, ST_MAIN_PREP, ST_MAIN_GREEN] :=
  (C11_scenario_B (roadSamples 0 287) startUp (mainLoop 8) rfl rfl
    (roadSamples_side_busy 0) (by decide) (by decide)).1

/-- C12 (scenario C, side green extension): in side green, when the main-road check made after
the 5000 ms dwell answers "not occupied" and the side-road check that follows answers
"occupied", `FSM_Update` issues a second 5000 ms delay and only then writes side amber, so the
dwell delays total 10000 ms (acquisition delays apart); in the complementary case side amber is
written right after the checks, with the 5000 ms dwell only. -/
theorem C12_side_green_extension (hw : Hardware) (s : Machine)
    (hp : s.current_state = ST_SIDE_GREEN) :
    (FSM_Update hw s).current_state = ST_SIDE_AMBER ∧
    (mainOccupied hw s = false → sideOccupied hw (Check_Main_Traffic hw s).2 = true →
      ∃ reads : List Effect, acquisitionsOnly reads = true ∧
        (FSM_Update hw s).trace = s.trace ++ (Effect.delay 5000 :: reads ++
          [Effect.delay 5000, Effect.stateWrite ST_SIDE_AMBER]) ∧
        dwellTime (Effect.delay 5000 :: reads ++
          [Effect.delay 5000, Effect.stateWrite ST_SIDE_AMBER]) = 10000) ∧
    (mainOccupied hw s = true ∨ sideOccupied hw (Check_Main_Traffic hw s).2 = false →
      ∃ reads : List Effect, acquisitionsOnly reads = true ∧
        (FSM_Update hw s).trace = s.trace ++ (Effect.delay 5000 :: reads ++
          [Effect.stateWrite ST_SIDE_AMBER]) ∧
        dwellTime (Effect.delay 5000 :: reads ++ [Effect.stateWrite ST_SIDE_AMBER]) = 5000) := by
  have htr := FSM_Update_trace_side_green hw s hp
  refine ⟨?_, ?_, ?_⟩
  · rw [FSM_Update_current_state hw s false, hp]; simp [transitionTable]
  · intro hm hs
    refine ⟨mainReads hw s.conversions ++ sideReads hw (s.conversions + 2),
      (acquisitionsOnly_reads hw s.conversions).2.2 _, ?_, ?_⟩
    · rw [htr, hm, hs]; simp
    · unfold mainReads sideReads; split <;> split <;> rfl
  · intro h
    by_cases hm : mainOccupied hw s = true
    · refine ⟨mainReads hw s.conversions, (acquisitionsOnly_reads hw s.conversions).1, ?_, ?_⟩
      · rw [htr, hm]; simp
      · unfold mainReads; split <;> rfl
    · have hs : sideOccupied hw (Check_Main_Traffic hw s).2 = false := by
        rcases h with h | h
        · exact absurd h hm
        · exact h
      have hm' : mainOccupied hw s = false := by simpa using hm
      refine ⟨mainReads hw s.conversions ++ sideReads hw (s.conversions + 2),
        (acquisitionsOnly_reads hw s.conversions).2.2 _, ?_, ?_⟩
      · rw [htr, hm', hs]; simp
      · unfold mainReads sideReads; split <;> split <;> rfl

/-- Witness for C12: main road empty and side road occupied gives the extended dwell. -/
theorem C12_side_green_extension_witness :
    ∃ reads : List Effect, acquisitionsOnly reads = true ∧
      (FSM_Update (roadSamples 0 287) (machineAt ST_SIDE_GREEN 0)).trace =
        (machineAt ST_SIDE_GREEN 0).trace ++ (Effect.delay 5000 :: reads ++
          [Effect.delay 5000, Effect.stateWrite ST_SIDE_AMBER]) ∧
      dwellTime (Effect.delay 5000 :: reads ++
        [Effect.delay 5000, Effect.stateWrite ST_SIDE_AMBER]) = 10000 :=
  (C12_side_green_extension (roadSamples 0 287) (machineAt ST_SIDE_GREEN 0) rfl).2.1
    (by decide) (by decide)

/-- C13 (no-demand stall): for every number of `FSM_Update` calls, starting in main green with
the flag clear, no button press and the side road unoccupied at every check, the phase is main
green after every one of the calls; the main-road readings are arbitrary. -/
theorem C13_no_demand_stall (hw : Hardware) (s : Machine) (acts : List Action)
    (h0 : s.current_state = ST_MAIN_GREEN) (hf : s.ped_request_flag = 0)
    (hside : ∀ m : Machine, sideOccupied hw m = false)
    (hno : ∀ a ∈ acts, a ≠ Action.button) :
    phasePath hw s acts = List.replicate (updates acts + 1) ST_MAIN_GREEN ∧
    (∀ p ∈ phasePath hw s acts, p = ST_MAIN_GREEN) ∧
    (run hw s acts).current_state = ST_MAIN_GREEN := by
  have h := stall_in_main_green hw hside acts s h0 hf hno
  refine ⟨h.1, ?_, h.2.1⟩
  intro p hp
  rw [h.1] at hp
  exact List.eq_of_mem_replicate hp

/-- Witness for C13: twenty iterations of the main loop from start-up, main road busy, side
road empty. -/
theorem C13_no_demand_stall_witness :
    (run (roadSamples 1023 0) startUp (mainLoop 20)).current_state = ST_MAIN_GREEN :=
  (C13_no_demand_stall (roadSamples 1023 0) startUp (mainLoop 20) rfl rfl
    (roadSamples_side_clear 1023) (by decide)).2.2

/-- C14 (red+amber convention): `Set_Outputs` asserts `SIDE_RED` and `SIDE_AMBER` together in
side prep and `MAIN_RED` and `MAIN_AMBER` together in main prep, with the green of that road
off; in main amber it asserts `MAIN_AMBER` with `MAIN_RED` and `MAIN_GREEN` off, in side amber
`SIDE_AMBER` with `SIDE_RED` and `SIDE_GREEN` off; in no other phase is an amber line
asserted. -/
theorem C14_red_amber_convention (s : Machine) :
    (getBit (Set_Outputs ST_SIDE_PREP s).LATD SIDE_RED = true ∧
      getBit (Set_Outputs ST_SIDE_PREP s).LATD SIDE_AMBER = true ∧
      getBit (Set_Outputs ST_SIDE_PREP s).LATD SIDE_GREEN = false) ∧
    (getBit (Set_Outputs ST_MAIN_PREP s).LATD MAIN_RED = true ∧
      getBit (Set_Outputs ST_MAIN_PREP s).LATD MAIN_AMBER = true ∧
      getBit (Set_Outputs ST_MAIN_PREP s).LATD MAIN_GREEN = false) ∧
    (getBit (Set_Outputs ST_MAIN_AMBER s).LATD MAIN_AMBER = true ∧
      getBit (Set_Outputs ST_MAIN_AMBER s).LATD MAIN_RED = false ∧
      getBit (Set_Outputs ST_MAIN_AMBER s).LATD MAIN_GREEN = false) ∧
    (getBit (Set_Outputs ST_SIDE_AMBER s).LATD SIDE_AMBER = true ∧
      getBit (Set_Outputs ST_SIDE_AMBER s).LATD SIDE_RED = false ∧
      getBit (Set_Outputs ST_SIDE_AMBER s).LATD SIDE_GREEN = false) ∧
    (∀ st : SystemState_t,
      (getBit (Set_Outputs st s).LATD MAIN_AMBER = true →
        st = ST_MAIN_AMBER ∨ st = ST_MAIN_PREP) ∧
      (getBit (Set_Outputs st s).LATD SIDE_AMBER = true →
        st = ST_SIDE_AMBER ∨ st = ST_SIDE_PREP)) := by
  refine ⟨?_, ?_, ?_, ?_, ?_⟩
  · simp only [Set_Outputs]; decide
  · simp only [Set_Outputs]; decide
  · simp only [Set_Outputs]; decide
  · simp only [Set_Outputs]; decide
  · intro st
    cases st <;> simp only [Set_Outputs] <;> decide

/-- C15 (the decoder depends on the phase only): for every phase and any two machines, that is
any two prior contents of `LATD`, `Set_Outputs` leaves the same bank, also right after the
outputs of a previous phase; every line asserted afterwards is one that the phase asserts on a
cleared bank, and the bank is an 8-bit value. -/
theorem C15_decoder_pure (st prev : SystemState_t) (s t : Machine) :
    (Set_Outputs st s).LATD = (Set_Outputs st t).LATD ∧
    (Set_Outputs st s).LATD = (Set_Outputs st { s with LATD := 0 }).LATD ∧
    (Set_Outputs st (Set_Outputs prev s)).LATD = (Set_Outputs st (machineAt st 0)).LATD ∧
    (∀ pin : Nat, getBit (Set_Outputs st s).LATD pin = true →
      getBit (Set_Outputs st (machineAt st 0)).LATD pin = true) ∧
    (Set_Outputs st s).LATD < 256 := by
  refine ⟨?_, ?_, ?_, ?_, ?_⟩
  · cases st <;> rfl
  · cases st <;> rfl
  · cases st <;> rfl
  · intro pin h
    have : (Set_Outputs st s).LATD = (Set_Outputs st (machineAt st 0)).LATD := by
      cases st <;> rfl
    rw [← this]; exact h
  · cases st <;> simp only [Set_Outputs] <;> decide

/-- C16 (dwell before decision): in every phase but pedestrian cross the first effect of
`FSM_Update` is the phase's full dwell delay, so it precedes every flag read, conversion and
phase write of the call; in pedestrian cross the flag and the four wait lights are cleared
first, then 10000 ms pass, then the phase is written; and in main green with no demand and no
side traffic the call ends with a further 100 ms delay and leaves the phase unchanged, 5100 ms
of dwell delay per call. -/
theorem C16_dwell_before_decision (hw : Hardware) (s : Machine) :
    (s.current_state ≠ ST_PED_CROSS → ∃ rest : List Effect,
      (FSM_Update hw s).trace = s.trace ++ Effect.delay (specDwell s.current_state) :: rest ∧
      ((FSM_Update hw s).current_state ≠ s.current_state →
        Effect.stateWrite (FSM_Update hw s).current_state ∈ rest) ∧
      ((s.current_state = ST_MAIN_GREEN ∨ s.current_state = ST_ALL_RED_1) →
        Effect.flagRead ∈ rest)) ∧
    (s.current_state = ST_PED_CROSS → (FSM_Update hw s).trace =
      s.trace ++ [Effect.flagClear, Effect.waitClear WAIT_LED_MAIN, Effect.waitClear LATB4,
        Effect.waitClear LATB5, Effect.waitClear LATB6, Effect.delay (specDwell ST_PED_CROSS),
        Effect.stateWrite ST_PED_CLEAR]) ∧
    (s.current_state = ST_MAIN_GREEN → demand s = false → sideOccupied hw s = false →
      (FSM_Update hw s).current_state = ST_MAIN_GREEN ∧
      (FSM_Update hw s).trace = s.trace ++ [Effect.delay 5000, Effect.flagRead, Effect.delay 2,
        Effect.convert 1, Effect.delay 2, Effect.convert 3, Effect.delay 100] ∧
      dwellTime [Effect.delay 5000, Effect.flagRead, Effect.delay 2,
        Effect.convert 1, Effect.delay 2, Effect.convert 3, Effect.delay 100] = 5100) := by
  have hplain := FSM_Update_trace_plain hw s
  have hphase := FSM_Update_current_state hw s false
  refine ⟨?_, hplain.2.2.1, ?_⟩
  · intro hx
    cases hp : s.current_state with
    | ST_PED_CROSS => exact absurd hp hx
    | ST_MAIN_GREEN =>
      rw [FSM_Update_trace_main_green hw s hp]
      refine ⟨_, rfl, ?_, fun _ => by simp⟩
      intro hne
      rw [hphase, hp] at hne ⊢
      cases hd : demand s <;> cases hs : sideOccupied hw s <;>
        simp [transitionTable, hd, hs] at hne ⊢
    | ST_MAIN_AMBER =>
      rw [hplain.1 hp]
      refine ⟨_, rfl, ?_, fun h => by simp at h⟩
      intro _
      rw [hphase, hp]; simp [transitionTable]
    | ST_ALL_RED_1 =>
      rw [hplain.2.1 hp]
      exact ⟨_, rfl, fun _ => by simp, fun _ => by simp⟩
    | ST_PED_CLEAR =>
      rw [FSM_Update_trace_ped_clear hw s hp]
      exact ⟨_, rfl, fun _ => by simp, fun h => by simp at h⟩
    | ST_SIDE_PREP =>
      rw [hplain.2.2.2.1 hp]
      refine ⟨_, rfl, ?_, fun h => by simp at h⟩
      intro _
      rw [hphase, hp]; simp [transitionTable]
    | ST_SIDE_GREEN =>
      rw [FSM_Update_trace_side_green hw s hp]
      refine ⟨_, rfl, ?_, fun h => by simp at h⟩
      intro _
      rw [hphase, hp]
      cases hm : mainOccupied hw s <;> cases hs : sideOccupied hw (Check_Main_Traffic hw s).2 <;>
        simp [transitionTable]
    | ST_SIDE_AMBER =>
      rw [hplain.2.2.2.2.1 hp]
      refine ⟨_, rfl, ?_, fun h => by simp at h⟩
      intro _
      rw [hphase, hp]; simp [transitionTable]
    | ST_ALL_RED_2 =>
      rw [hplain.2.2.2.2.2.1 hp]
      refine ⟨_, rfl, ?_, fun h => by simp at h⟩
      intro _
      rw [hphase, hp]; simp [transitionTable]
    | ST_MAIN_PREP =>
      rw [hplain.2.2.2.2.2.2 hp]
      refine ⟨_, rfl, ?_, fun h => by simp at h⟩
      intro _
      rw [hphase, hp]; simp [transitionTable]
  · intro hp hd hs
    refine ⟨?_, ?_, rfl⟩
    · rw [hphase, hp, hd, hs]; simp [transitionTable]
    · rw [FSM_Update_trace_main_green hw s hp, hd, hs, sideReads_clear hw s hs]
      simp

/-- Witness for C16: the idle main-green call on a machine after start-up. -/
theorem C16_dwell_before_decision_witness :
    (FSM_Update (constantSample 286) startUp).current_state = ST_MAIN_GREEN ∧
    (FSM_Update (constantSample 286) startUp).trace =
      startUp.trace ++ [Effect.delay 5000, Effect.flagRead, Effect.delay 2,
        Effect.convert 1, Effect.delay 2, Effect.convert 3, Effect.delay 100] ∧
    dwellTime [Effect.delay 5000, Effect.flagRead, Effect.delay 2,
      Effect.convert 1, Effect.delay 2, Effect.convert 3, Effect.delay 100] = 5100 :=
  (C16_dwell_before_decision (constantSample 286) startUp).2.2 rfl (by decide) (by decide)

/-- C17 (soundness of the all-red 1 assumption): take any run that starts in main green, under
any button presses and sensor readings, and stop it where the machine is in all-red 1 and the
coming `FSM_Update` call takes the branch to side prep.  Then the last two calls were the
main-green exit to main amber and the main-amber call, and that exit test saw the flag clear and
the side road occupied. -/
theorem C17_all_red_assumption (hw : Hardware) (s : Machine) (acts : List Action)
    (h0 : s.current_state = ST_MAIN_GREEN)
    (hphase : (run hw s acts).current_state = ST_ALL_RED_1)
    (hbranch : (FSM_Update hw (run hw s acts)).current_state = ST_SIDE_PREP) :
    ∃ (pre : List Observation) (a b : Observation), history hw s acts = pre ++ [a, b] ∧
      a.phase = ST_MAIN_GREEN ∧ a.next = ST_MAIN_AMBER ∧ a.demand = false ∧ a.side = true ∧
      b.phase = ST_MAIN_AMBER ∧ b.next = ST_ALL_RED_1 := by
  have hinv := exitInv_foldl hw acts (s, []) (by rw [h0]; trivial)
  rw [foldl_logStep_fst] at hinv
  simp only at hinv
  rw [hphase] at hinv
  simp only [exitInv] at hinv
  obtain ⟨pre, a, b, hh, h1, h2, h3, h4, h5, h6⟩ := hinv
  have hflag : (run hw s acts).ped_request_flag = 0 := by
    rw [FSM_Update_current_state hw _ false, hphase] at hbranch
    by_contra hne
    simp [transitionTable, demand, hne] at hbranch
  have hd : a.demand = false := by
    cases hda : a.demand
    · rfl
    · exact absurd hflag (h3 hda)
  exact ⟨pre, a, b, hh, h1, h2, hd, h4 hd, h5, h6⟩

/-- Witness for C17: a run from start-up that stalls once, then leaves main green on side
traffic while the flag is clear, and stands in all-red 1. -/
theorem C17_all_red_assumption_witness :
    ∃ (pre : List Observation) (a b : Observation),
      history (roadSamples 0 287) startUp (mainLoop 2) = pre ++ [a, b] ∧
      a.phase = ST_MAIN_GREEN ∧ a.next = ST_MAIN_AMBER ∧ a.demand = false ∧ a.side = true ∧
      b.phase = ST_MAIN_AMBER ∧ b.next = ST_ALL_RED_1 :=
  C17_all_red_assumption (roadSamples 0 287) startUp (mainLoop 2) rfl (by decide) (by decide)

/-- C18 (conflict-free aspects): in the bank left by `Set_Outputs`, for every phase, a road
showing green or amber (red+amber included) comes with the other road and the pedestrian head
showing red only; `PED_GREEN` is asserted only when both roads show red only; and exactly one
of `PED_RED` and `PED_GREEN` is asserted. -/
theorem C18_conflict_free (st : SystemState_t) (s : Machine) :
    ((getBit (Set_Outputs st s).LATD MAIN_GREEN = true ∨
        getBit (Set_Outputs st s).LATD MAIN_AMBER = true) →
      sideRedOnly (Set_Outputs st s).LATD = true ∧ pedRedOnly (Set_Outputs st s).LATD = true) ∧
    ((getBit (Set_Outputs st s).LATD SIDE_GREEN = true ∨
        getBit (Set_Outputs st s).LATD SIDE_AMBER = true) →
      mainRedOnly (Set_Outputs st s).LATD = true ∧ pedRedOnly (Set_Outputs st s).LATD = true) ∧
    (getBit (Set_Outputs st s).LATD PED_GREEN = true →
      mainRedOnly (Set_Outputs st s).LATD = true ∧ sideRedOnly (Set_Outputs st s).LATD = true) ∧
    (getBit (Set_Outputs st s).LATD PED_RED ≠ getBit (Set_Outputs st s).LATD PED_GREEN) := by
  cases st <;> simp only [Set_Outputs] <;> decide

/-- C19 (no trapping phase besides the main-green wait): outside main green every `FSM_Update`
call moves to a phase later in `SystemState_t` or from main prep to main green; hence from any
phase, under any presses and readings, main green is among the phases reached within nine
calls; and nine calls are needed from main amber with a pedestrian demand and side traffic. -/
theorem C19_returns_to_main_green (hw : Hardware) (s : Machine) (acts : List Action)
    (h9 : 9 ≤ updates acts) :
    (s.current_state ≠ ST_MAIN_GREEN →
      s.current_state.toNat < (FSM_Update hw s).current_state.toNat ∨
      (s.current_state = ST_MAIN_PREP ∧ (FSM_Update hw s).current_state = ST_MAIN_GREEN)) ∧
    ST_MAIN_GREEN ∈ (phasePath hw s acts).take 10 ∧
    (phasePath (constantSample 1023) (machineAt ST_MAIN_AMBER 1) (mainLoop 9) =
        [ST_MAIN_AMBER, ST_ALL_RED_1, ST_PED_CROSS, ST_PED_CLEAR, ST_SIDE_PREP, ST_SIDE_GREEN,
          ST_SIDE_AMBER, ST_ALL_RED_2, ST_MAIN_PREP, ST_MAIN_GREEN] ∧
      ST_MAIN_GREEN ∉
        (phasePath (constantSample 1023) (machineAt ST_MAIN_AMBER 1) (mainLoop 9)).take 9) := by
  refine ⟨mainRank_step hw s, main_green_within hw acts s 9 (mainRank_le _) h9, ?_⟩
  decide

/-- Witness for C19: from pedestrian clear with the side road occupied, with presses on the
way, main green is reached within nine calls. -/
theorem C19_returns_to_main_green_witness :
    ST_MAIN_GREEN ∈ (phasePath (constantSample 1023) (machineAt ST_PED_CLEAR 0)
      (Action.button :: mainLoop 4 ++ Action.button :: mainLoop 5)).take 10 :=
  (C19_returns_to_main_green (constantSample 1023) (machineAt ST_PED_CLEAR 0)
    (Action.button :: mainLoop 4 ++ Action.button :: mainLoop 5) (by decide)).2.1

end TrafficLight
